import Mathlib

/-!
Verification development for the HybridGM persistence engine
(`hybridgm_bundle.py`): a shallow embedding of the save/journal
consistency and merge core, together with theorems about its
documented behaviour.

Modelling conventions:
* Python/JSON values are embedded as `JVal`; a Python `dict` with string
  keys is `PyDict`, an insertion-ordered association list (CPython dicts
  preserve insertion order; updating an existing key keeps its position,
  inserting a new key appends at the end).
* Python exceptions are modelled with `Except String`; the string is a
  model of the exception text (CPython messages are not reproduced
  byte-for-byte except where the source builds the message itself).
* The filesystem visible to the engine is the `Disk` record; writes that
  may be silently corrupted by the storage layer (the spec's "simulated"
  empty-file scenario) are routed through an adversarial `Faults` record,
  whose honest instantiation is the identity.
* SHA-256 is modelled by the injective stand-in `sha256Hex` (prefixing a
  tag to the hashed byte string): the claims depend only on which byte
  strings are hashed, with collision-freeness idealized.
-/

set_option autoImplicit false

inductive JVal where
  | null
  | bool (b : Bool)
  | num (n : Int)
  | str (s : String)
  | arr (xs : List JVal)
  | obj (kvs : List (String × JVal))

mutual

def decEqJ : (a b : JVal) → Decidable (a = b)
  | .null, .null => .isTrue rfl
  | .null, .bool _ => .isFalse (fun h => JVal.noConfusion h)
  | .null, .num _ => .isFalse (fun h => JVal.noConfusion h)
  | .null, .str _ => .isFalse (fun h => JVal.noConfusion h)
  | .null, .arr _ => .isFalse (fun h => JVal.noConfusion h)
  | .null, .obj _ => .isFalse (fun h => JVal.noConfusion h)
  | .bool _, .null => .isFalse (fun h => JVal.noConfusion h)
  | .bool a, .bool b =>
    match decEq a b with
    | .isTrue h => .isTrue (by rw [h])
    | .isFalse h => .isFalse (fun c => h (JVal.bool.inj c))
  | .bool _, .num _ => .isFalse (fun h => JVal.noConfusion h)
  | .bool _, .str _ => .isFalse (fun h => JVal.noConfusion h)
  | .bool _, .arr _ => .isFalse (fun h => JVal.noConfusion h)
  | .bool _, .obj _ => .isFalse (fun h => JVal.noConfusion h)
  | .num _, .null => .isFalse (fun h => JVal.noConfusion h)
  | .num _, .bool _ => .isFalse (fun h => JVal.noConfusion h)
  | .num a, .num b =>
    match decEq a b with
    | .isTrue h => .isTrue (by rw [h])
    | .isFalse h => .isFalse (fun c => h (JVal.num.inj c))
  | .num _, .str _ => .isFalse (fun h => JVal.noConfusion h)
  | .num _, .arr _ => .isFalse (fun h => JVal.noConfusion h)
  | .num _, .obj _ => .isFalse (fun h => JVal.noConfusion h)
  | .str _, .null => .isFalse (fun h => JVal.noConfusion h)
  | .str _, .bool _ => .isFalse (fun h => JVal.noConfusion h)
  | .str _, .num _ => .isFalse (fun h => JVal.noConfusion h)
  | .str a, .str b =>
    match decEq a b with
    | .isTrue h => .isTrue (by rw [h])
    | .isFalse h => .isFalse (fun c => h (JVal.str.inj c))
  | .str _, .arr _ => .isFalse (fun h => JVal.noConfusion h)
  | .str _, .obj _ => .isFalse (fun h => JVal.noConfusion h)
  | .arr _, .null => .isFalse (fun h => JVal.noConfusion h)
  | .arr _, .bool _ => .isFalse (fun h => JVal.noConfusion h)
  | .arr _, .num _ => .isFalse (fun h => JVal.noConfusion h)
  | .arr _, .str _ => .isFalse (fun h => JVal.noConfusion h)
  | .arr a, .arr b =>
    match decEqL a b with
    | .isTrue h => .isTrue (by rw [h])
    | .isFalse h => .isFalse (fun c => h (JVal.arr.inj c))
  | .arr _, .obj _ => .isFalse (fun h => JVal.noConfusion h)
  | .obj _, .null => .isFalse (fun h => JVal.noConfusion h)
  | .obj _, .bool _ => .isFalse (fun h => JVal.noConfusion h)
  | .obj _, .num _ => .isFalse (fun h => JVal.noConfusion h)
  | .obj _, .str _ => .isFalse (fun h => JVal.noConfusion h)
  | .obj _, .arr _ => .isFalse (fun h => JVal.noConfusion h)
  | .obj a, .obj b =>
    match decEqP a b with
    | .isTrue h => .isTrue (by rw [h])
    | .isFalse h => .isFalse (fun c => h (JVal.obj.inj c))

def decEqL : (a b : List JVal) → Decidable (a = b)
  | [], [] => .isTrue rfl
  | [], _ :: _ => .isFalse (fun h => List.noConfusion h)
  | _ :: _, [] => .isFalse (fun h => List.noConfusion h)
  | x :: xs, y :: ys =>
    match decEqJ x y with
    | .isFalse h => .isFalse (fun c => h (List.cons.inj c).1)
    | .isTrue h1 =>
      match decEqL xs ys with
      | .isTrue h2 => .isTrue (by rw [h1, h2])
      | .isFalse h => .isFalse (fun c => h (List.cons.inj c).2)

def decEqP : (a b : List (String × JVal)) → Decidable (a = b)
  | [], [] => .isTrue rfl
  | [], _ :: _ => .isFalse (fun h => List.noConfusion h)
  | _ :: _, [] => .isFalse (fun h => List.noConfusion h)
  | (k, v) :: xs, (k', v') :: ys =>
    match decEq k k' with
    | .isFalse h => .isFalse (fun c => h (congrArg Prod.fst (List.cons.inj c).1))
    | .isTrue hk =>
      match decEqJ v v' with
      | .isFalse h => .isFalse (fun c => h (congrArg Prod.snd (List.cons.inj c).1))
      | .isTrue hv =>
        match decEqP xs ys with
        | .isTrue h2 => .isTrue (by rw [hk, hv, h2])
        | .isFalse h => .isFalse (fun c => h (List.cons.inj c).2)

end

instance : DecidableEq JVal := decEqJ

abbrev PyDict := List (String × JVal)

/-- First-match lookup in an insertion-ordered dict (`d.get(k)` / `d[k]`). -/
def pyGet : PyDict → String → Option JVal
  | [], _ => none
  | (k', v') :: r, k => if k' = k then some v' else pyGet r k

/-- `d.get(k, default)`. -/
def pyGetD (d : PyDict) (k : String) (v : JVal) : JVal :=
  (pyGet d k).getD v

/-- `k in d`. -/
def pyContainsKey (d : PyDict) (k : String) : Bool :=
  (pyGet d k).isSome

/-- `d[k] = v`: update in place if the key exists, else append at the end. -/
def pySet : PyDict → String → JVal → PyDict
  | [], k, v => [(k, v)]
  | (k', v') :: r, k, v => if k' = k then (k, v) :: r else (k', v') :: pySet r k v

/-- `d.setdefault(k, v)`. -/
def pySetdefault (d : PyDict) (k : String) (v : JVal) : PyDict :=
  if pyContainsKey d k then d else d ++ [(k, v)]

/-- Python truthiness of a JSON-like value. -/
def truthy : JVal → Bool
  | .null => false
  | .bool b => b
  | .num n => decide (n ≠ 0)
  | .str s => decide (s ≠ "")
  | .arr xs => !xs.isEmpty
  | .obj kvs => !kvs.isEmpty

/-- `x or default-list` as used for `save.get(k) or []`. -/
def orList (o : Option JVal) : JVal :=
  match o with
  | none => .arr []
  | some v => if truthy v then v else .arr []

/-- ASCII model of `str.upper()` (all mode strings in the engine are ASCII). -/
def pyUpper (s : String) : String := String.mk (s.data.map Char.toUpper)

def pySpace (c : Char) : Bool := c = ' ' || c = '\t' || c = '\n' || c = '\r'

def digitsVal : List Char → Option Nat
  | [] => none
  | cs => cs.foldl (fun acc c => match acc with
      | none => none
      | some n => if c.isDigit then some (n * 10 + (c.toNat - '0'.toNat)) else none)
      (some 0)

/-- Model of `int(s)` on a string: strip whitespace, optional sign, digits. -/
def parseIntPy (s : String) : Option Int :=
  let cs := ((s.data.dropWhile pySpace).reverse.dropWhile pySpace).reverse
  match cs with
  | '-' :: ds => (digitsVal ds).map (fun n => -(n : Int))
  | '+' :: ds => (digitsVal ds).map (fun n => (n : Int))
  | ds => (digitsVal ds).map (fun n => (n : Int))

/-- Model of `int(x)` on a JSON-like value. -/
def pyIntE : JVal → Except String Int
  | .num n => .ok n
  | .bool b => .ok (if b then 1 else 0)
  | .str s =>
    match parseIntPy s with
    | some n => .ok n
    | none => .error ("ValueError: invalid literal for int(): " ++ s)
  | _ => .error "TypeError: int() argument must be a string or a number"

/-- Python `+` as used on log fields: sequence concatenation or arithmetic. -/
def pyAdd : JVal → JVal → Except String JVal
  | .arr a, .arr b => .ok (.arr (a ++ b))
  | .str a, .str b => .ok (.str (a ++ b))
  | .num a, .num b => .ok (.num (a + b))
  | .num a, .bool b => .ok (.num (a + (if b then 1 else 0)))
  | .bool a, .num b => .ok (.num ((if a then 1 else 0) + b))
  | .bool a, .bool b => .ok (.num ((if a then 1 else 0) + (if b then 1 else 0)))
  | _, _ => .error "TypeError: unsupported operand types for +"

/-- `l[-n:]` (the whole list when `l` has at most `n` elements). -/
def takeLastN (n : Nat) (l : List JVal) : List JVal :=
  l.drop (l.length - n)

/-- `"sep".join(xs)`. -/
def pyJoin (sep : String) : List String → String
  | [] => ""
  | [x] => x
  | x :: xs => x ++ sep ++ pyJoin sep xs

def charsBegin : List Char → List Char → Bool
  | [], _ => true
  | _ :: _, [] => false
  | a :: as, b :: bs => a = b && charsBegin as bs

def goContains : List Char → List Char → Bool
  | [], n => charsBegin n []
  | c :: t, n => if charsBegin n (c :: t) then true else goContains t n

/-- `needle in hay` for strings. -/
def strContainsB (hay needle : String) : Bool := goContains hay.data needle.data

/-- `s.startswith(p)`. -/
def strBegins (s p : String) : Bool := charsBegin p.data s.data

-- JSON serialization (ensure_ascii=False): escaping per CPython json.

def hexDig (n : Nat) : Char :=
  if n < 10 then Char.ofNat ('0'.toNat + n) else Char.ofNat ('a'.toNat + n - 10)

def escChar (c : Char) : String :=
  if c = '"' then "\\\""
  else if c = '\\' then "\\\\"
  else if c = '\n' then "\\n"
  else if c = '\t' then "\\t"
  else if c = '\r' then "\\r"
  else if c.toNat = 8 then "\\b"
  else if c.toNat = 12 then "\\f"
  else if c.toNat < 32 then
    "\\u00" ++ String.singleton (hexDig (c.toNat / 16)) ++ String.singleton (hexDig (c.toNat % 16))
  else String.singleton c

def jsonQuote (s : String) : String :=
  "\"" ++ String.join (s.data.map escChar) ++ "\""

/-- Ascending insertion into a key-sorted list of rendered pairs. -/
def insortPair (p : String × String) : List (String × String) → List (String × String)
  | [] => [p]
  | q :: r => if p.1 ≤ q.1 then p :: q :: r else q :: insortPair p r

def sortPairs : List (String × String) → List (String × String)
  | [] => []
  | p :: r => insortPair p (sortPairs r)

mutual

/-- One-line JSON serializer: `sep` between items, `ksep` between key and
value, keys sorted when `sortK` (models `json.dumps` with the
corresponding `separators` / `sort_keys` arguments, `ensure_ascii=False`). -/
def serVal (sep ksep : String) (sortK : Bool) : JVal → String
  | .null => "null"
  | .bool b => if b then "true" else "false"
  | .num n => toString n
  | .str s => jsonQuote s
  | .arr xs => "[" ++ pyJoin sep (serList sep ksep sortK xs) ++ "]"
  | .obj kvs =>
    let ps := serPairs sep ksep sortK kvs
    let ps := if sortK then sortPairs ps else ps
    "\x7b" ++ pyJoin sep (ps.map (fun p => jsonQuote p.1 ++ ksep ++ p.2)) ++ "\x7d"

def serList (sep ksep : String) (sortK : Bool) : List JVal → List String
  | [] => []
  | x :: r => serVal sep ksep sortK x :: serList sep ksep sortK r

def serPairs (sep ksep : String) (sortK : Bool) : List (String × JVal) → List (String × String)
  | [] => []
  | (k, v) :: r => (k, serVal sep ksep sortK v) :: serPairs sep ksep sortK r

end

/-- `_sorted_json`: `json.dumps(obj, ensure_ascii=False, sort_keys=True,
separators=(",", ":"))`. -/
def sorted_json (v : JVal) : String := serVal "," ":" true v

/-- `json.dumps(obj, ensure_ascii=False)` with default separators, used for
one NDJSON journal line. -/
def dumpDefault (v : JVal) : String := serVal ", " ": " false v

def indentStr (n : Nat) : String := String.mk (List.replicate (2 * n) ' ')

mutual

/-- `json.dumps(obj, ensure_ascii=False, indent=2)`. -/
def ser2 (lvl : Nat) : JVal → String
  | .null => "null"
  | .bool b => if b then "true" else "false"
  | .num n => toString n
  | .str s => jsonQuote s
  | .arr [] => "[]"
  | .arr (x :: r) =>
    "[\n" ++ pyJoin ",\n" (ser2List (lvl + 1) (x :: r)) ++ "\n" ++ indentStr lvl ++ "]"
  | .obj [] => "\x7b\x7d"
  | .obj (p :: r) =>
    "\x7b\n" ++ pyJoin ",\n" (ser2Pairs (lvl + 1) (p :: r)) ++ "\n" ++ indentStr lvl ++ "\x7d"

def ser2List (lvl : Nat) : List JVal → List String
  | [] => []
  | x :: r => (indentStr lvl ++ ser2 lvl x) :: ser2List lvl r

def ser2Pairs (lvl : Nat) : List (String × JVal) → List String
  | [] => []
  | (k, v) :: r => (indentStr lvl ++ jsonQuote k ++ ": " ++ ser2 lvl v) :: ser2Pairs lvl r

end

def dump_json_indent2 (v : JVal) : String := ser2 0 v

/-- Model of CPython `repr` for a string in the common case (single-quote
delimiters); only reachable on the hash fallback path. -/
def pyReprChr (c : Char) : String :=
  if c = '\\' then "\\\\"
  else if c = '\'' then "\\'"
  else if c = '\n' then "\\n"
  else if c = '\t' then "\\t"
  else if c = '\r' then "\\r"
  else String.singleton c

def pyReprStr (s : String) : String :=
  "'" ++ String.join (s.data.map pyReprChr) ++ "'"

mutual

/-- Model of CPython `repr` on JSON-like values (hash fallback path). -/
def pyReprVal : JVal → String
  | .null => "None"
  | .bool b => if b then "True" else "False"
  | .num n => toString n
  | .str s => pyReprStr s
  | .arr xs => "[" ++ pyJoin ", " (pyReprListVals xs) ++ "]"
  | .obj kvs => "\x7b" ++ pyJoin ", " (pyReprPairsVals kvs) ++ "\x7d"

def pyReprListVals : List JVal → List String
  | [] => []
  | x :: r => pyReprVal x :: pyReprListVals r

def pyReprPairsVals : List (String × JVal) → List String
  | [] => []
  | (k, v) :: r => (pyReprStr k ++ ": " ++ pyReprVal v) :: pyReprPairsVals r

end

/-- Model of `str(x)` as used in f-strings and snapshot names. -/
def pyStr : JVal → String
  | .str s => s
  | v => pyReprVal v

/-- Injective stand-in for the hex SHA-256 digest of a UTF-8 string. -/
def sha256Hex (s : String) : String := "sha256:" ++ s

-- ------------------------
-- Paths & constants (module constants of hybridgm_bundle.py)
-- ------------------------

def SAVE_PATH : String := "/mnt/data/save.json"

def JOURNAL_PATH : String := "/mnt/data/saves/journal.ndjson"

def SCHEMA_PATH : String := "/mnt/data/save_schema.v1.2.json"

def JOURNAL_SCHEMA_PATH : String := "/mnt/data/journal_schema.v1.0.json"

-- ------------------------
-- compute_save_hash
-- ------------------------

/-- The membership test `"save_hash" in integ` for an arbitrary value:
defined for dicts (key lookup), strings (substring) and lists (element
membership); raises `TypeError` otherwise. -/
def saveHashIn : JVal → Except String Bool
  | .obj kvs => .ok (pyContainsKey kvs "save_hash")
  | .str s => .ok (strContainsB s "save_hash")
  | .arr xs => .ok (decide (JVal.str "save_hash" ∈ xs))
  | _ => .error "TypeError: argument of type is not iterable"

/-- The `try` body of `compute_save_hash`; `none` models an exception,
which the source converts to the `repr`-based fallback hash.
`json.loads(json.dumps(save))` is the identity on JSON-like values, so the
clone is the value itself (the functional embedding has no aliasing). -/
def csh_try (save : PyDict) : Option String :=
  let flags := pyGetD save "flags" (.obj [])
  match flags with
  | .obj fl =>
    let integ := pyGetD fl "integrity" (.obj [])
    match saveHashIn integ with
    | .error _ => none
    | .ok false => some (sha256Hex (sorted_json (.obj save)))
    | .ok true =>
      match integ with
      | .obj il =>
        let il' := pySet il "save_hash" (.str "")
        let fl' := pySet fl "integrity" (.obj il')
        let clone' := pySet save "flags" (.obj fl')
        some (sha256Hex (sorted_json (.obj clone')))
      | _ => none
  | _ => none

/-- `compute_save_hash`: stable hash ignoring the hash field itself, with a
`repr`-based fallback if canonicalization fails. -/
def compute_save_hash (save : PyDict) : String :=
  match csh_try save with
  | some s => s
  | none => sha256Hex (pyReprVal (.obj save))

/-- The digest-refresh tail shared by `import_save_merge`, `export_save` and
`write_save`:
`m.setdefault("flags", {}).setdefault("integrity", {})` followed by
`m["flags"]["integrity"]["save_hash"] = compute_save_hash(m)`, where the
hash is computed after the `setdefault`s but before the digest is stored.
The second component is the `warn:hash_failed` warning when the `try`
body raises (`write_save` discards it). -/
def refreshDigest (m : PyDict) : PyDict × Option String :=
  match pyGet m "flags" with
  | none =>
    let m1 := m ++ [("flags", JVal.obj [("integrity", JVal.obj [])])]
    (pySet m1 "flags" (.obj [("integrity", .obj [("save_hash", .str (compute_save_hash m1))])]),
      none)
  | some (.obj fl) =>
    match pyGet fl "integrity" with
    | none =>
      let fl1 := fl ++ [("integrity", JVal.obj [])]
      let m1 := pySet m "flags" (.obj fl1)
      (pySet m1 "flags"
        (.obj (pySet fl1 "integrity" (.obj [("save_hash", .str (compute_save_hash m1))]))),
        none)
    | some (.obj il) =>
      (pySet m "flags"
        (.obj (pySet fl "integrity" (.obj (pySet il "save_hash" (.str (compute_save_hash m)))))),
        none)
    | some _ => (m, some "warn:hash_failed:TypeError")
  | some _ => (m, some "warn:hash_failed:AttributeError")

-- ------------------------
-- basic_validate
-- ------------------------

/-- State of an external schema file: absent, present but not JSON, or
parsed JSON. -/
inductive FileContent where
  | absent
  | invalidJson
  | json (v : JVal)

/-- Python iteration `for x in v`: lists yield elements, strings yield
one-character strings, dicts yield their keys; other values raise. -/
def iterOf : JVal → Except String (List JVal)
  | .arr xs => .ok xs
  | .str s => .ok (s.data.map (fun c => JVal.str (String.singleton c)))
  | .obj kvs => .ok (kvs.map (fun p => JVal.str p.1))
  | _ => .error "TypeError: object is not iterable"

/-- `schema["schema"]["top_level_order"]` then iteration: any failure is an
exception inside the source's `try` block. -/
def bv_required (v : JVal) : Except String (List JVal) :=
  match v with
  | .obj kvs =>
    match pyGet kvs "schema" with
    | none => .error "KeyError: schema"
    | some sv =>
      match sv with
      | .obj skvs =>
        match pyGet skvs "top_level_order" with
        | none => .error "KeyError: top_level_order"
        | some t => iterOf t
      | _ => .error "TypeError: value is not subscriptable"
  | _ => .error "TypeError: value is not subscriptable"

/-- The presence loop of `basic_validate`: `key not in save` raises for
unhashable keys; hashable non-string keys are never dict keys here, so
they are reported missing with their `str()` rendering. -/
def bv_issues (save : PyDict) : List JVal → Except String (List String)
  | [] => .ok []
  | key :: rest =>
    match key with
    | .arr _ => .error "TypeError: unhashable type"
    | .obj _ => .error "TypeError: unhashable type"
    | .str s =>
      if pyContainsKey save s then bv_issues save rest
      else (bv_issues save rest).map (fun l => ("missing:" ++ s) :: l)
    | k => (bv_issues save rest).map (fun l => ("missing:" ++ pyStr k) :: l)

/-- `basic_validate`: strictly require the external save schema and check
top-level presence; schema absence raises before the `try`, every failure
inside the `try` is re-raised as "invalid or unreadable". -/
def basic_validate (fs : FileContent) (save : PyDict) : Except String (List String) :=
  match fs with
  | .absent => .error ("Save schema missing: " ++ SCHEMA_PATH)
  | .invalidJson => .error "Save schema invalid or unreadable: JSONDecodeError"
  | .json v =>
    match bv_required v with
    | .error e => .error ("Save schema invalid or unreadable: " ++ e)
    | .ok req =>
      match bv_issues save req with
      | .error e => .error ("Save schema invalid or unreadable: " ++ e)
      | .ok issues => .ok issues

/-- Whether a value is hashable in Python (may appear in a `in dict`
membership test without raising). -/
def jHashable : JVal → Bool
  | .arr _ => false
  | .obj _ => false
  | _ => true

/-- Whether the parsed schema has the shape the `basic_validate` code
expects, i.e. the shape on which its `try` block does not raise:
`schema.top_level_order` reachable, iterable, and all iterated keys
hashable. -/
def schemaShapeOk (v : JVal) : Bool :=
  match bv_required v with
  | .error _ => false
  | .ok req => req.all jHashable

-- ------------------------
-- import_save_merge
-- ------------------------

/-- `merged = dict(current); for k, v in incoming.items(): if k not in
merged: merged[k] = v` — additive gap fill, never overwriting. -/
def gapFill (m : PyDict) : PyDict → PyDict
  | [] => m
  | (k, v) :: r => gapFill (if pyContainsKey m k then m else m ++ [(k, v)]) r

/-- `merged = dict(current); for k, v in incoming.items(): merged[k] = v`. -/
def overwriteAll (m : PyDict) : PyDict → PyDict
  | [] => m
  | (k, v) :: r => overwriteAll (pySet m k v) r

/-- `_concat_trim(log, cap)`: non-lists collapse to `[]`, lists are trimmed
to their last `cap` entries when longer than `cap`. -/
def concat_trim (log : JVal) (cap : Nat) : JVal :=
  match log with
  | .arr l => if cap < l.length then .arr (takeLastN cap l) else .arr l
  | _ => .arr []

/-- The equal-turn special-casing of `dialogue_log` / `turn_log`:
`dl = (current.get(k) or []) + (incoming.get(k) or []); merged[k] =
_concat_trim(dl, cap)`. -/
def equalMergeLogs (m cur inc : PyDict) : Except String PyDict :=
  match pyAdd (orList (pyGet cur "dialogue_log")) (orList (pyGet inc "dialogue_log")) with
  | .error e => .error e
  | .ok d1 =>
    match pyAdd (orList (pyGet cur "turn_log")) (orList (pyGet inc "turn_log")) with
    | .error e => .error e
    | .ok t1 =>
      .ok (pySet (pySet m "dialogue_log" (concat_trim d1 10)) "turn_log" (concat_trim t1 50))

/-- The tail of `import_save_merge`: refresh the digest (failure is a
warning) and return the merged document with the accumulated warnings. -/
def finishMerge (merged : PyDict) (warn : String) (w1 w2 : List String) :
    Except String (PyDict × List String) :=
  .ok ((refreshDigest merged).1, w1 ++ w2 ++ [warn] ++ (refreshDigest merged).2.toList)

/-- `import_save_merge`: the file read `incoming = _load_json(path)` is
modelled by passing the already-parsed incoming document. -/
def import_save_merge (fs : FileContent) (incoming current : PyDict) :
    Except String (PyDict × List String) :=
  match basic_validate fs incoming with
  | .error e => .error e
  | .ok w1 =>
    match basic_validate fs current with
    | .error e => .error e
    | .ok w2 =>
      match pyIntE (pyGetD incoming "turn" (.num 0)) with
      | .error e => .error e
      | .ok turn_in =>
        match pyIntE (pyGetD current "turn" (.num 0)) with
        | .error e => .error e
        | .ok turn_cur =>
          if turn_cur < turn_in then
            finishMerge incoming
              ("info:incoming_newer:" ++ toString turn_in ++ ">" ++ toString turn_cur) w1 w2
          else if turn_in < turn_cur then
            finishMerge (gapFill current incoming)
              ("info:current_newer:" ++ toString turn_cur ++ ">" ++ toString turn_in) w1 w2
          else
            match equalMergeLogs (overwriteAll current incoming) current incoming with
            | .error e => .error e
            | .ok m => finishMerge m "info:merged_equal_turn" w1 w2

-- ------------------------
-- end_turn (post-turn bookkeeping)
-- ------------------------

/-- The caller-supplied arguments of `end_turn` / `append_journal` /
`persist_turn_and_footer`. -/
structure Args where
  scene_ref : Option String
  dialogue_lines : List JVal
  scene_tags : Option (List String)
  choices : Option (List String)
  choice_taken : Option Int
  mode : String

/-- `x or ""` on an optional string (`None` and `""` both give `""`). -/
def orEmptyStr (o : Option String) : String := o.getD ""

/-- The three list `setdefault`s of `_ensure_lists`. -/
def ensure3 (s : PyDict) : PyDict :=
  pySetdefault (pySetdefault (pySetdefault s "dialogue_log" (.arr []))
    "turn_log" (.arr [])) "turn_tags" (.arr [])

/-- `_ensure_lists`: `setdefault` the three lists and
`setdefault("flags", {}).setdefault("integrity", {})`; a non-dict `flags`
value makes the second `setdefault` raise. -/
def ensure_lists (s : PyDict) : Except String PyDict :=
  match pyGet (ensure3 s) "flags" with
  | none => .ok (ensure3 s ++ [("flags", JVal.obj [("integrity", JVal.obj [])])])
  | some (.obj fl) =>
    .ok (pySet (ensure3 s) "flags" (.obj (pySetdefault fl "integrity" (.obj []))))
  | some _ => .error "AttributeError: object has no attribute setdefault"

/-- The turn advance of `end_turn`: skipped when `mode.upper() == "IC"`,
otherwise `turn = int(save.get("turn", 0)) + 1` with the `except` arm
resetting to 1. -/
def bumpTurn (mode : String) (s : PyDict) : PyDict :=
  if pyUpper mode = "IC" then s
  else
    pySet s "turn" (.num (match pyIntE (pyGetD s "turn" (.num 0)) with
      | .ok n => n + 1
      | .error _ => 1))

/-- The `dialogue_log` entry built by `end_turn` (after the turn advance). -/
def mkEntry (a : Args) (s : PyDict) : JVal :=
  .obj [("turn", pyGetD s "turn" (.num 0)),
        ("scene", .str (orEmptyStr a.scene_ref)),
        ("lines", .arr a.dialogue_lines),
        ("choice", match a.choice_taken with | some n => .num n | none => .null),
        ("tags", .arr ((a.scene_tags.getD []).map JVal.str))]

/-- The `turn_log` entry `{"turn": save.get("turn", 0), "ref": scene_ref or ""}`. -/
def tlogEntry (a : Args) (s : PyDict) : JVal :=
  .obj [("turn", pyGetD s "turn" (.num 0)), ("ref", .str (orEmptyStr a.scene_ref))]

/-- The tag loop: append each not-yet-known tag; `known` starts as the set
of current entries and grows with each append, which coincides with
membership in the accumulated list. -/
def tagLoop (ts : List JVal) : List String → List JVal
  | [] => ts
  | t :: rest =>
    if JVal.str t ∈ ts then tagLoop ts rest else tagLoop (ts ++ [JVal.str t]) rest

/-- `if scene_tags: ...` — the deduplicating accumulation into
`save["turn_tags"]`. When `turn_tags` holds a truthy string or dict, the
membership test against `set(...)` can succeed for every tag (characters /
keys), in which case nothing is appended and no error is raised; any
required append on a non-list raises. -/
def addTags (tags : List String) (s : PyDict) : Except String PyDict :=
  if tags.isEmpty then .ok s
  else
    match pyGet s "turn_tags" with
    | some (.arr ts) => .ok (pySet s "turn_tags" (.arr (tagLoop ts tags)))
    | some (.str cs) =>
      if cs ≠ "" && tags.all (fun t => t.data.length = 1 && strContainsB cs t) then .ok s
      else .error "AttributeError: object has no attribute append"
    | some (.obj kvs) =>
      if !kvs.isEmpty && tags.all (fun t => pyContainsKey kvs t) then .ok s
      else .error "AttributeError: object has no attribute append"
    | some _ => .error "TypeError: object is not iterable"
    | none => .error "KeyError: turn_tags"

/-- `if len(save["dialogue_log"]) > 10: save["dialogue_log"] =
save["dialogue_log"][-10:]` applied to the freshly appended list. -/
def trimIf (l : List JVal) : List JVal :=
  if 10 < l.length then takeLastN 10 l else l

/-- `save["dialogue_log"].append(entry)` plus the 10-entry cap. -/
def afterDlog (a : Args) (s2 : PyDict) : Except String PyDict :=
  match pyGet s2 "dialogue_log" with
  | some (.arr dl) => .ok (pySet s2 "dialogue_log" (.arr (trimIf (dl ++ [mkEntry a s2]))))
  | some _ => .error "AttributeError: object has no attribute append"
  | none => .error "KeyError: dialogue_log"

/-- `save["turn_log"].append({"turn": ..., "ref": ...})` (no cap). -/
def afterTlog (a : Args) (s3 : PyDict) : Except String PyDict :=
  match pyGet s3 "turn_log" with
  | some (.arr tl) => .ok (pySet s3 "turn_log" (.arr (tl ++ [tlogEntry a s3])))
  | some _ => .error "AttributeError: object has no attribute append"
  | none => .error "KeyError: turn_log"

/-- `end_turn`, instrumented to also return the `dialogue_log` entry it
appended. -/
def end_turnE (a : Args) (s : PyDict) : Except String (PyDict × JVal) :=
  match ensure_lists s with
  | .error e => .error e
  | .ok s1 =>
    match afterDlog a (bumpTurn a.mode s1) with
    | .error e => .error e
    | .ok s3 =>
      match afterTlog a s3 with
      | .error e => .error e
      | .ok s4 =>
        match addTags (a.scene_tags.getD []) s4 with
        | .error e => .error e
        | .ok s5 => .ok (s5, mkEntry a (bumpTurn a.mode s1))

/-- `end_turn`: turn bookkeeping on the in-memory save. -/
def end_turn (a : Args) (s : PyDict) : Except String PyDict :=
  (end_turnE a s).map Prod.fst

/-- A sequence of `end_turn` calls, collecting the appended
`dialogue_log` entries. -/
def runE : List Args → PyDict → Except String (PyDict × List JVal)
  | [], s => .ok (s, [])
  | a :: cs, s =>
    match end_turnE a s with
    | .error e => .error e
    | .ok (s1, e) =>
      match runE cs s1 with
      | .error e2 => .error e2
      | .ok (s2, es) => .ok (s2, e :: es)

-- ------------------------
-- Disk, write_save, append_journal, compose_footer, persist_turn_and_footer
-- ------------------------

/-- The storage state the engine touches: the canonical save file, the
journal file and the snapshot directory (`none` = file absent). -/
structure Disk where
  save : Option String
  journal : Option String
  snapshots : List (String × String)

/-- Adversarial model of silent storage corruption applied to the content
a write produced (`fun c => some c` is the honest disk). -/
structure Faults where
  saveW : String → Option String
  journalW : String → Option String

def honestFaults : Faults := ⟨fun c => some c, fun c => some c⟩

def setSnap : List (String × String) → String → String → List (String × String)
  | [], n, c => [(n, c)]
  | (n', c') :: r, n, c => if n' = n then (n, c) :: r else (n', c') :: setSnap r n c

/-- `write_save`: refresh digest (`except: pass`), serialize with
`indent=2`, write + flush + fsync the canonical save, optionally write the
turn-keyed snapshot. Returns the path, the mutated save and the disk. -/
def write_save (d : Disk) (save : PyDict) (snapshot : Bool) : String × PyDict × Disk :=
  let s1 := (refreshDigest save).1
  let blob := dump_json_indent2 (.obj s1)
  let d1 : Disk := { d with save := some blob }
  let snapName := "snapshot-turn-" ++ pyStr (pyGetD s1 "turn" (.str "0")) ++ ".json"
  let d2 : Disk :=
    if snapshot then { d1 with snapshots := setSnap d1.snapshots snapName blob }
    else d1
  (SAVE_PATH, s1, d2)

/-- `int(save.get("turn", 0))` and the journal entry literal of
`append_journal`; `_now_iso()` is passed in as `now`. -/
def buildEntry (save : PyDict) (now : String) (a : Args) : Except String PyDict :=
  match pyIntE (pyGetD save "turn" (.num 0)) with
  | .error e => .error e
  | .ok t =>
    .ok [("turn", .num t),
       ("timestamp", .str now),
       ("location", pyGetD save "loc" .null),
       ("time", pyGetD save "time" .null),
       ("scene_ref", match a.scene_ref with
         | some s => if s = "" then .null else .str s
         | none => .null),
       ("scene_tags", .arr ((a.scene_tags.getD []).map JVal.str)),
       ("dialogue", .arr a.dialogue_lines),
       ("choices", .arr ((a.choices.getD []).map JVal.str)),
       ("choice_taken", match a.choice_taken with | some n => .num n | none => .null),
       ("relationship_changes", .arr []),
       ("inventory_changes", .arr []),
       ("money_change", .obj []),
       ("hooks_added", .arr []),
       ("flags_set", .arr []),
       ("notes", .str ""),
       ("promises", .arr [])]

/-- `if extra: entry.update(extra)`. -/
def applyExtra (e : PyDict) (extra : Option PyDict) : PyDict :=
  match extra with
  | none => e
  | some ex => ex.foldl (fun acc p => pySet acc p.1 p.2) e

/-- The full journal entry (`buildEntry` then `extra` update). -/
def journalEntryOf (save : PyDict) (now : String) (a : Args) (extra : Option PyDict) :
    Except String PyDict :=
  (buildEntry save now a).map (fun e => applyExtra e extra)

/-- `list(journal_schema.get("required", []))`. -/
def rootRequiredOf (js : JVal) : Except String (List JVal) :=
  match js with
  | .obj kvs => iterOf (pyGetD kvs "required" (.arr []))
  | _ => .error "AttributeError: object has no attribute get"

/-- `k not in entry or entry[k] in (None, "")` for a string key. -/
def entryFieldMissing (e : PyDict) (k : String) : Bool :=
  match pyGet e k with
  | none => true
  | some v => decide (v = JVal.null) || decide (v = JVal.str "")

/-- `[k for k in root_required if k not in entry or entry[k] in (None, "")]`;
unhashable keys raise on the membership test. -/
def collectMissing (e : PyDict) : List JVal → Except String (List JVal)
  | [] => .ok []
  | key :: rest =>
    match key with
    | .arr _ => .error "TypeError: unhashable type"
    | .obj _ => .error "TypeError: unhashable type"
    | .str s =>
      if entryFieldMissing e s then (collectMissing e rest).map (fun l => JVal.str s :: l)
      else collectMissing e rest
    | k => (collectMissing e rest).map (fun l => k :: l)

/-- `", ".join(missing)`: every element must be a string. -/
def joinComma : List JVal → Except String (List String)
  | [] => .ok []
  | .str s :: rest => (joinComma rest).map (fun l => s :: l)
  | _ :: _ => .error "TypeError: sequence item expected str instance"

/-- `journal_schema.get("properties", {}).get("dialogue", {}).get("items",
{}).get("required", [])`. -/
def dlgReqOf (js : JVal) : Except String JVal :=
  match js with
  | .obj kvs =>
    match pyGetD kvs "properties" (.obj []) with
    | .obj l1 =>
      match pyGetD l1 "dialogue" (.obj []) with
      | .obj l2 =>
        match pyGetD l2 "items" (.obj []) with
        | .obj l3 => .ok (pyGetD l3 "required" (.arr []))
        | _ => .error "AttributeError: object has no attribute get"
      | _ => .error "AttributeError: object has no attribute get"
    | _ => .error "AttributeError: object has no attribute get"
  | _ => .error "AttributeError: object has no attribute get"

/-- `key not in line or line[key] in (None, "")` for one dialogue line;
faithful for dict lines (the declared type of dialogue lines), a
`TypeError`-style exception for non-dict lines (CPython may raise a
different exception type there; either way the append aborts before the
write). -/
def lineKeyMissing (l : JVal) (key : JVal) : Except String Bool :=
  match l with
  | .obj kvs =>
    match key with
    | .str k => .ok (entryFieldMissing kvs k)
    | .num _ => .ok true
    | .bool _ => .ok true
    | .null => .ok true
    | _ => .error "TypeError: unhashable type"
  | _ => .error "TypeError: dialogue line is not a dict"

def keyLoop (i : Nat) (l : JVal) : List JVal → Except String Unit
  | [] => .ok ()
  | key :: krest =>
    match lineKeyMissing l key with
    | .error e => .error e
    | .ok true =>
      .error ("Journal dialogue line " ++ toString i ++ " missing '" ++ pyStr key ++
        "' per schema")
    | .ok false => keyLoop i l krest

def lineLoop (keys : List JVal) : Nat → List JVal → Except String Unit
  | _, [] => .ok ()
  | i, l :: rest =>
    match keyLoop i l keys with
    | .error e => .error e
    | .ok _ => lineLoop keys (i + 1) rest

/-- The dialogue-tier validation: skipped when `dlg_req` is falsy,
otherwise iterate `enumerate(entry.get("dialogue") or [])`. -/
def dlgCheck (entry : PyDict) (dlgReq : JVal) : Except String Unit :=
  if truthy dlgReq then
    match iterOf dlgReq with
    | .error e => .error e
    | .ok keys =>
      match iterOf (orList (pyGet entry "dialogue")) with
      | .error e => .error e
      | .ok lines => lineLoop keys 0 lines
  else .ok ()

/-- `append_journal`: build the entry, validate it in two tiers against the
journal schema, and only then append one NDJSON line. The second component
is the journal file content after the call (unchanged on any failure). -/
def append_journal (jfs : FileContent) (now : String) (save : PyDict) (a : Args)
    (extra : Option PyDict) (jfile : Option String) :
    Except String String × Option String :=
  match journalEntryOf save now a extra with
  | .error e => (.error e, jfile)
  | .ok entry =>
    match jfs with
    | .absent => (.error ("Journal schema missing: " ++ JOURNAL_SCHEMA_PATH), jfile)
    | .invalidJson => (.error "JSONDecodeError: journal schema", jfile)
    | .json js =>
      match rootRequiredOf js with
      | .error e => (.error e, jfile)
      | .ok rootReq =>
        match collectMissing entry rootReq with
        | .error e => (.error e, jfile)
        | .ok missing =>
          if missing.isEmpty then
            match dlgReqOf js with
            | .error e => (.error e, jfile)
            | .ok dr =>
              match dlgCheck entry dr with
              | .error e => (.error e, jfile)
              | .ok _ =>
                (.ok JOURNAL_PATH,
                  some ((jfile.getD "") ++ dumpDefault (.obj entry) ++ "\n"))
          else
            match joinComma missing with
            | .error e => (.error e, jfile)
            | .ok ms =>
              (.error ("Journal entry missing required fields per schema: " ++
                pyJoin ", " ms), jfile)

-- Footer helpers

/-- `_nonempty(p)`: the file exists and has positive size. -/
def nonemptyFile : Option String → Bool
  | none => false
  | some c => decide (c ≠ "")

def rstripSlash (s : String) : String :=
  String.mk ((s.data.reverse.dropWhile (fun c => c = '/')).reverse)

/-- `_build_url_from_base`: `base` models `os.getenv("FILES_BASE_URL", "")`
(the module default is `""`). -/
def build_url_from_base (base path : String) : Option String :=
  let b := rstripSlash base
  if b = "" then none
  else
    let rel := if strBegins path "/mnt/data/" then (path.data.drop 10).asString else path
    some (b ++ "/" ++ rel)

def FOOTER_MARKER : String := "**Save/Journal not written**"

/-- `compose_footer`: download lines plus the not-written marker when either
artifact is missing or empty, re-read from storage. -/
def compose_footer (base : String) (d : Disk) : String :=
  let save_ok := nonemptyFile d.save
  let j_ok := nonemptyFile d.journal
  let save_url := (build_url_from_base base SAVE_PATH).getD ("sandbox:" ++ SAVE_PATH)
  let journal_url := (build_url_from_base base JOURNAL_PATH).getD ("sandbox:" ++ JOURNAL_PATH)
  let l1 :=
    if strBegins save_url "http" then "[Download Save](" ++ save_url ++ ")"
    else "Download: " ++ save_url ++ "  <!-- set FILES_BASE_URL for public link -->"
  let l2 :=
    if strBegins journal_url "http" then "[Download Journal](" ++ journal_url ++ ")"
    else "Download Journal: " ++ journal_url ++ "  <!-- set FILES_BASE_URL for public link -->"
  let ls := [l1, l2] ++ (if save_ok && j_ok then [] else [FOOTER_MARKER])
  "\n\n" ++ pyJoin "\n" ls

/-- The argument normalization `persist_turn_and_footer` applies before
delegating (`scene_tags or []`, `choices or []`). -/
def persistArgs (a : Args) : Args :=
  { a with scene_tags := some (a.scene_tags.getD []), choices := some (a.choices.getD []) }

/-- The save write of the persist pipeline followed by the adversarial
corruption of the written content. -/
def persistWrite (F : Faults) (d : Disk) (s : PyDict) : PyDict × Disk :=
  let (_, s2, d2) := write_save d s true
  (s2, { d2 with save := d2.save.bind F.saveW })

/-- `persist_turn_and_footer`: end_turn → write_save → append_journal inside
one `try` whose handler re-raises `PERSISTENCE_FAILED: <cause>`, then the
post-condition assert on the freshly read storage state. Returns the
result together with the final disk. -/
def persist_turn_and_footer (F : Faults) (base now : String) (jfs : FileContent)
    (d : Disk) (s : PyDict) (a : Args) : Except String String × Disk :=
  match end_turn (persistArgs a) s with
  | .error e => (.error ("PERSISTENCE_FAILED: " ++ e), d)
  | .ok s1 =>
    match (append_journal jfs now (persistWrite F d s1).1 (persistArgs a) none
        (persistWrite F d s1).2.journal).1 with
    | .error e =>
      (.error ("PERSISTENCE_FAILED: " ++ e),
        { (persistWrite F d s1).2 with
          journal := (append_journal jfs now (persistWrite F d s1).1 (persistArgs a) none
            (persistWrite F d s1).2.journal).2 })
    | .ok _ =>
      let d3 : Disk :=
        { (persistWrite F d s1).2 with
          journal := ((append_journal jfs now (persistWrite F d s1).1 (persistArgs a) none
            (persistWrite F d s1).2.journal).2).bind F.journalW }
      if strContainsB (compose_footer base d3) FOOTER_MARKER then
        (.error "PERSISTENCE_FAILED: files missing/empty after write", d3)
      else (.ok (compose_footer base d3), d3)

-- ------------------------
-- Specification-side constructions
-- ------------------------

/-- The claim's construction "d with `flags.integrity.save_hash` set to v",
following the source's `setdefault`-then-assign idiom (`export_save` /
`write_save`); non-dict intermediate values are left unchanged (the
assignment would raise). -/
def setDigest (d : PyDict) (v : JVal) : PyDict :=
  match pyGet d "flags" with
  | some (.obj fl) =>
    match pyGet fl "integrity" with
    | some (.obj il) =>
      pySet d "flags" (.obj (pySet fl "integrity" (.obj (pySet il "save_hash" v))))
    | none =>
      pySet d "flags" (.obj (pySet (fl ++ [("integrity", JVal.obj [])]) "integrity"
        (.obj [("save_hash", v)])))
    | some _ => d
  | none => d ++ [("flags", .obj [("integrity", .obj [("save_hash", v)])])]
  | some _ => d

/-- The equal-turn merged document just before the digest refresh: current
overwritten key-by-key by incoming, then the two logs replaced by the
current-then-incoming concatenations trimmed to their most recent 10 / 50
entries (`cl`/`il` and `ctl`/`itl` are the list views of the two documents'
`dialogue_log` and `turn_log`). -/
def equalMerged (cur inc : PyDict) (cl il ctl itl : List JVal) : PyDict :=
  pySet (pySet (overwriteAll cur inc) "dialogue_log" (.arr (takeLastN 10 (cl ++ il))))
    "turn_log" (.arr (takeLastN 50 (ctl ++ itl)))

/-- The first schema violation among dict-shaped dialogue lines: position
of the first line missing one of the required keys, with that key. -/
def lineFirstMiss (l : JVal) (keys : List String) : Option String :=
  match l with
  | .obj kvs => keys.find? (fun k => entryFieldMissing kvs k)
  | _ => none

def firstViol (keys : List String) : Nat → List JVal → Option (Nat × String)
  | _, [] => none
  | i, l :: rest =>
    match lineFirstMiss l keys with
    | some k => some (i, k)
    | none => firstViol keys (i + 1) rest

-- ------------------------
-- Concrete fixtures for witnesses and counterexamples
-- ------------------------

def c5gm_args : Args := ⟨some "s", [], some [], some [], none, "GM"⟩

def c5gm_save : PyDict := [("turn", .num 4)]

def c5gm_out : PyDict :=
  match end_turn c5gm_args c5gm_save with
  | .ok s => s
  | .error _ => []

def c5ic_args : Args := ⟨some "s", [], some [], some [], none, "IC"⟩

def c5ic_save : PyDict := [("turn", .num 7)]

def c5ic_out : PyDict :=
  match end_turn c5ic_args c5ic_save with
  | .ok s => s
  | .error _ => []

def c10_args : Args := ⟨some "s", [], some [], some [], none, "ic"⟩

def c10_save : PyDict := [("turn", .num 3)]

def c10_out : PyDict :=
  match end_turn c10_args c10_save with
  | .ok s => s
  | .error _ => []

def c2fs : FileContent := .json (.obj [("schema", .obj [("top_level_order", .arr [])])])

def c2inc : PyDict := [("turn", .num 1), ("pet", .str "cat")]

def c2cur : PyDict :=
  [("turn", .num 2), ("flags", .obj [("integrity", .obj [("save_hash", .str "y")])])]

def c2m : PyDict :=
  match import_save_merge c2fs c2inc c2cur with
  | .ok (m, _) => m
  | .error _ => []

def c2winc : PyDict := [("turn", .num 5), ("x", .num 1)]

def c2wcur : PyDict := [("turn", .num 3), ("y", .num 2)]

def c2wm : PyDict :=
  match import_save_merge c2fs c2winc c2wcur with
  | .ok (m, _) => m
  | .error _ => []

def c2wws : List String :=
  match import_save_merge c2fs c2winc c2wcur with
  | .ok (_, ws) => ws
  | .error _ => []

def c3inc : PyDict :=
  [("turn", .num 1), ("flags", .obj [("integrity", .obj [("save_hash", .str "x")])])]

def c3cur : PyDict :=
  [("turn", .num 1), ("flags", .obj [("integrity", .obj [("save_hash", .str "yy")])])]

def c3m : PyDict :=
  match import_save_merge c2fs c3inc c3cur with
  | .ok (m, _) => m
  | .error _ => []

def c3ws : List String :=
  match import_save_merge c2fs c3inc c3cur with
  | .ok (_, ws) => ws
  | .error _ => []

def c3winc : PyDict :=
  [("turn", .num 1), ("x", .num 7),
   ("dialogue_log", .arr ([10, 11, 12, 13, 14, 15, 16, 17].map JVal.num))]

def c3wcur : PyDict :=
  [("turn", .num 1), ("dialogue_log", .arr ([1, 2, 3, 4, 5].map JVal.num))]

def c3wm : PyDict :=
  match import_save_merge c2fs c3winc c3wcur with
  | .ok (m, _) => m
  | .error _ => []

def c3wws : List String :=
  match import_save_merge c2fs c3winc c3wcur with
  | .ok (_, ws) => ws
  | .error _ => []

def c8args : Args := ⟨some "w", [], some [], some [], none, "GM"⟩

def c8calls : List Args := List.replicate 11 c8args

def c8out : PyDict :=
  match runE c8calls [] with
  | .ok (s, _) => s
  | .error _ => []

def c8es : List JVal :=
  match runE c8calls [] with
  | .ok (_, es) => es
  | .error _ => []

/-- Both persistence artifacts exist and are non-empty (the storage state
`compose_footer` re-reads). -/
def diskBothOk (d : Disk) : Bool :=
  nonemptyFile d.save && nonemptyFile d.journal

def c7save : PyDict := [("dialogue_log", .num 0)]

def c7args : Args := ⟨none, [], none, none, none, "GM"⟩

def c7jfs : FileContent := .json (.obj [("required", .arr [])])

def c7disk : Disk := ⟨none, none, []⟩

def c7msg : String :=
  match end_turn (persistArgs c7args) c7save with
  | .error e => e
  | .ok _ => ""

def c1args : Args :=
  ⟨some "sc", [.obj [("speaker", .str "N"), ("text", .str "t")]], some ["T"],
   some ["c"], none, "GM"⟩

def c1fault : Faults := ⟨fun _ => some "", fun c => some c⟩

def c1res : Except String String × Disk :=
  persist_turn_and_footer c1fault "" "2026-01-01T00:00:00Z" c7jfs c7disk
    [("turn", .num 0)] c1args

def c4js : JVal :=
  .obj [("required", .arr [.str "turn", .str "location"]),
        ("properties", .obj [("dialogue", .obj [("items", .obj [("required",
          .arr [.str "speaker", .str "text"])])])])]

def c4save : PyDict := [("turn", .num 2)]

def c4args : Args := ⟨some "sc", [], some [], some [], none, "GM"⟩

def c4entry : PyDict :=
  match journalEntryOf c4save "2026-01-01T00:00:00Z" c4args none with
  | .ok e => e
  | .error _ => []

def c4res : Except String String × Option String :=
  append_journal (.json c4js) "2026-01-01T00:00:00Z" c4save c4args none (some "PRIOR\n")

-- ------------------------
-- Dictionary lemmas
-- ------------------------

theorem pyGet_pySet_self (s : PyDict) (k : String) (v : JVal) :
    pyGet (pySet s k v) k = some v := by
  induction s with
  | nil => simp [pySet, pyGet]
  | cons p r ih =>
    obtain ⟨k', v'⟩ := p
    by_cases h : k' = k <;> simp [pySet, pyGet, h, ih]

theorem pyGet_pySet_ne (s : PyDict) (k k' : String) (v : JVal) (hne : k' ≠ k) :
    pyGet (pySet s k v) k' = pyGet s k' := by
  induction s with
  | nil => simp [pySet, pyGet, Ne.symm hne]
  | cons p r ih =>
    obtain ⟨k'', v''⟩ := p
    by_cases h : k'' = k
    · subst h
      simp [pySet, pyGet, Ne.symm hne]
    · simp [pySet, pyGet, h, ih]

theorem pySet_pySet (s : PyDict) (k : String) (v w : JVal) :
    pySet (pySet s k v) k w = pySet s k w := by
  induction s with
  | nil => simp [pySet]
  | cons p r ih =>
    obtain ⟨k', v'⟩ := p
    by_cases h : k' = k <;> simp [pySet, h, ih]

theorem pyContainsKey_pySet_self (s : PyDict) (k : String) (v : JVal) :
    pyContainsKey (pySet s k v) k = true := by
  simp [pyContainsKey, pyGet_pySet_self]

theorem pyGet_append_left (s t : PyDict) (k : String) (v : JVal)
    (h : pyGet s k = some v) : pyGet (s ++ t) k = some v := by
  induction s with
  | nil => simp [pyGet] at h
  | cons p r ih =>
    obtain ⟨k', v'⟩ := p
    by_cases hk : k' = k
    · simp [pyGet, hk] at h ⊢
      exact h
    · simp [pyGet, hk] at h ⊢
      exact ih h

theorem pyGet_append_right (s t : PyDict) (k : String)
    (h : pyGet s k = none) : pyGet (s ++ t) k = pyGet t k := by
  induction s with
  | nil => simp
  | cons p r ih =>
    obtain ⟨k', v'⟩ := p
    by_cases hk : k' = k
    · simp [pyGet, hk] at h
    · simp [pyGet, hk] at h ⊢
      exact ih h

theorem pyGet_setdefault_ne (s : PyDict) (k k' : String) (v : JVal) (hne : k' ≠ k) :
    pyGet (pySetdefault s k v) k' = pyGet s k' := by
  unfold pySetdefault
  by_cases h : pyContainsKey s k
  · simp [h]
  · simp [h]
    cases hg : pyGet s k' with
    | none =>
      rw [pyGet_append_right s _ _ hg]
      simp [pyGet, Ne.symm hne]
    | some w => rw [pyGet_append_left s _ _ _ hg]

theorem pyGet_setdefault_self (s : PyDict) (k : String) (v : JVal) :
    pyGet (pySetdefault s k v) k = some ((pyGet s k).getD v) := by
  unfold pySetdefault
  cases hg : pyGet s k with
  | none =>
    simp [pyContainsKey, hg]
    rw [pyGet_append_right s _ _ hg]
    simp [pyGet]
  | some w => simp [pyContainsKey, hg]

-- ------------------------
-- takeLastN lemmas
-- ------------------------

theorem takeLastN_length_le (n : Nat) (l : List JVal) : (takeLastN n l).length ≤ n := by
  simp only [takeLastN, List.length_drop]
  omega

theorem takeLastN_of_le (n : Nat) (l : List JVal) (h : l.length ≤ n) :
    takeLastN n l = l := by
  simp only [takeLastN]
  rw [Nat.sub_eq_zero_of_le h, List.drop_zero]

theorem takeLastN_append_left (n : Nat) (a b : List JVal) (h : n ≤ b.length) :
    takeLastN n (a ++ b) = takeLastN n b := by
  simp only [takeLastN, List.length_append]
  have h1 : a.length + b.length - n = a.length + (b.length - n) := by omega
  rw [h1, ← List.drop_drop, List.drop_left]

theorem takeLastN_idem_append (n : Nat) (a b : List JVal) :
    takeLastN n (takeLastN n a ++ b) = takeLastN n (a ++ b) := by
  by_cases h : a.length ≤ n
  · rw [takeLastN_of_le n a h]
  · have hn : n ≤ a.length := Nat.le_of_lt (Nat.lt_of_not_le h)
    have hlen : (takeLastN n a).length = n := by
      simp only [takeLastN, List.length_drop]
      omega
    have hd : takeLastN n a ++ b = (a ++ b).drop (a.length - n) := by
      rw [List.drop_append_of_le_length (by omega)]
      rfl
    rw [hd]
    unfold takeLastN
    rw [List.length_drop, List.drop_drop]
    congr 1
    rw [List.length_append]
    omega

-- ------------------------
-- String containment lemmas
-- ------------------------

theorem charsBegin_refl (l : List Char) : charsBegin l l = true := by
  induction l with
  | nil => rfl
  | cons c r ih => simp [charsBegin, ih]

theorem charsBegin_append (p r : List Char) : charsBegin p (p ++ r) = true := by
  induction p with
  | nil => rfl
  | cons c q ih => simp [charsBegin, ih]

theorem goContains_suffix (pre n : List Char) : goContains (pre ++ n) n = true := by
  induction pre with
  | nil =>
    rw [List.nil_append]
    cases n with
    | nil => rfl
    | cons c t =>
      unfold goContains
      rw [charsBegin_refl]
      simp
  | cons c q ih =>
    rw [List.cons_append]
    unfold goContains
    by_cases h : charsBegin n (c :: (q ++ n)) = true
    · simp [h]
    · simp [h, ih]

theorem strBegins_append (p x : String) : strBegins (p ++ x) p = true := by
  simp only [strBegins, String.data_append]
  exact charsBegin_append p.data x.data

-- ------------------------
-- C6: digest independence of the digest field
-- ------------------------

theorem compute_save_hash_via (d fl il : PyDict)
    (hfl : pyGet d "flags" = some (.obj fl))
    (hil : pyGet fl "integrity" = some (.obj il))
    (hsh : pyContainsKey il "save_hash" = true) :
    compute_save_hash d =
      sha256Hex (sorted_json (.obj (pySet d "flags"
        (.obj (pySet fl "integrity" (.obj (pySet il "save_hash" (.str "")))))))) := by
  unfold compute_save_hash csh_try
  simp [pyGetD, hfl, hil, saveHashIn, hsh]

/-- C6: for a save document whose `flags.integrity` mapping carries the
`save_hash` key, `compute_save_hash` is unchanged by setting that digest
field to any value, and two documents that differ only in the digest field
hash identically. -/
theorem compute_save_hash_digest_independent (d fl il : PyDict) (v : JVal)
    (hfl : pyGet d "flags" = some (.obj fl))
    (hil : pyGet fl "integrity" = some (.obj il))
    (hsh : pyContainsKey il "save_hash" = true) :
    compute_save_hash (setDigest d v) = compute_save_hash d ∧
    ∀ w₁ w₂ : JVal,
      compute_save_hash (setDigest d w₁) = compute_save_hash (setDigest d w₂) := by
  have main : ∀ w : JVal, compute_save_hash (setDigest d w) = compute_save_hash d := by
    intro w
    have e1 : setDigest d w =
        pySet d "flags" (.obj (pySet fl "integrity" (.obj (pySet il "save_hash" w)))) := by
      simp only [setDigest, hfl, hil]
    rw [compute_save_hash_via d fl il hfl hil hsh]
    rw [compute_save_hash_via (setDigest d w)
        (pySet fl "integrity" (.obj (pySet il "save_hash" w)))
        (pySet il "save_hash" w)
        (by rw [e1]; exact pyGet_pySet_self _ _ _)
        (pyGet_pySet_self _ _ _)
        (pyContainsKey_pySet_self _ _ _)]
    rw [e1, pySet_pySet, pySet_pySet, pySet_pySet]
  exact ⟨main v, fun w₁ w₂ => (main w₁).trans (main w₂).symm⟩

theorem compute_save_hash_digest_independent_witness :
    compute_save_hash (setDigest
        [("turn", .num 1),
         ("flags", .obj [("integrity", .obj [("save_hash", .str "old")])])]
        (.str "zzz")) =
      compute_save_hash
        [("turn", .num 1),
         ("flags", .obj [("integrity", .obj [("save_hash", .str "old")])])] :=
  (compute_save_hash_digest_independent
    [("turn", .num 1), ("flags", .obj [("integrity", .obj [("save_hash", .str "old")])])]
    [("integrity", .obj [("save_hash", .str "old")])]
    [("save_hash", .str "old")]
    (.str "zzz") rfl rfl rfl).1

-- ------------------------
-- end_turn lemmas, C5 and C10
-- ------------------------

theorem pyGet_append_one_ne (s : PyDict) (k0 k : String) (v : JVal) (h : k ≠ k0) :
    pyGet (s ++ [(k0, v)]) k = pyGet s k := by
  cases hg : pyGet s k with
  | none =>
    rw [pyGet_append_right s _ _ hg]
    simp [pyGet, Ne.symm h]
  | some w => rw [pyGet_append_left s _ _ _ hg]


theorem ensure_lists_get_ne (s s' : PyDict) (k : String) (h : ensure_lists s = .ok s')
    (h1 : k ≠ "dialogue_log") (h2 : k ≠ "turn_log") (h3 : k ≠ "turn_tags")
    (h4 : k ≠ "flags") : pyGet s' k = pyGet s k := by
  have hget3 : pyGet (ensure3 s) k = pyGet s k := by
    unfold ensure3
    rw [pyGet_setdefault_ne _ _ _ _ h3, pyGet_setdefault_ne _ _ _ _ h2,
      pyGet_setdefault_ne _ _ _ _ h1]
  unfold ensure_lists at h
  cases hf : pyGet (ensure3 s) "flags" with
  | none =>
    rw [hf] at h
    simp only [Except.ok.injEq] at h
    rw [← h, pyGet_append_one_ne _ _ _ _ h4, hget3]
  | some v =>
    rw [hf] at h
    cases v with
    | obj fl =>
      simp only [Except.ok.injEq] at h
      rw [← h, pyGet_pySet_ne _ _ _ _ h4, hget3]
    | null => simp at h
    | bool b => simp at h
    | num n => simp at h
    | str t => simp at h
    | arr xs => simp at h

theorem afterDlog_get_ne (a : Args) (s s' : PyDict) (k : String)
    (h : afterDlog a s = .ok s') (hk : k ≠ "dialogue_log") : pyGet s' k = pyGet s k := by
  unfold afterDlog at h
  cases hg : pyGet s "dialogue_log" with
  | none => rw [hg] at h; simp at h
  | some v =>
    rw [hg] at h
    cases v with
    | arr dl =>
      simp only [Except.ok.injEq] at h
      rw [← h, pyGet_pySet_ne _ _ _ _ hk]
    | null => simp at h
    | bool b => simp at h
    | num n => simp at h
    | str t => simp at h
    | obj kv => simp at h

theorem afterTlog_get_ne (a : Args) (s s' : PyDict) (k : String)
    (h : afterTlog a s = .ok s') (hk : k ≠ "turn_log") : pyGet s' k = pyGet s k := by
  unfold afterTlog at h
  cases hg : pyGet s "turn_log" with
  | none => rw [hg] at h; simp at h
  | some v =>
    rw [hg] at h
    cases v with
    | arr tl =>
      simp only [Except.ok.injEq] at h
      rw [← h, pyGet_pySet_ne _ _ _ _ hk]
    | null => simp at h
    | bool b => simp at h
    | num n => simp at h
    | str t => simp at h
    | obj kv => simp at h

theorem addTags_get_ne (tags : List String) (s s' : PyDict) (k : String)
    (h : addTags tags s = .ok s') (hk : k ≠ "turn_tags") : pyGet s' k = pyGet s k := by
  unfold addTags at h
  split at h
  · cases h
    rfl
  · split at h
    · simp only [Except.ok.injEq] at h
      rw [← h, pyGet_pySet_ne _ _ _ _ hk]
    · split at h
      · cases h
        rfl
      · simp at h
    · split at h
      · cases h
        rfl
      · simp at h
    · simp at h
    · simp at h

theorem end_turnE_ok_elim (a : Args) (s s' : PyDict) (e : JVal)
    (h : end_turnE a s = .ok (s', e)) :
    ∃ s1 s3 s4, ensure_lists s = .ok s1 ∧ afterDlog a (bumpTurn a.mode s1) = .ok s3 ∧
      afterTlog a s3 = .ok s4 ∧ addTags (a.scene_tags.getD []) s4 = .ok s' ∧
      e = mkEntry a (bumpTurn a.mode s1) := by
  unfold end_turnE at h
  split at h
  · simp at h
  · rename_i s1 he
    split at h
    · simp at h
    · rename_i s3 hd
      split at h
      · simp at h
      · rename_i s4 ht
        split at h
        · simp at h
        · rename_i s5 hg
          simp only [Except.ok.injEq, Prod.mk.injEq] at h
          refine ⟨s1, s3, s4, he, hd, ht, ?_, h.2.symm⟩
          rw [← h.1]
          exact hg

theorem end_turnE_turn (a : Args) (s s' : PyDict) (e : JVal)
    (h : end_turnE a s = .ok (s', e)) :
    pyGet s' "turn" =
      (if pyUpper a.mode = "IC" then pyGet s "turn"
       else some (.num (match pyIntE (pyGetD s "turn" (.num 0)) with
         | .ok n => n + 1
         | .error _ => 1))) := by
  obtain ⟨s1, s3, s4, he, hd, ht, hg, -⟩ := end_turnE_ok_elim a s s' e h
  have ht1 : pyGet s1 "turn" = pyGet s "turn" :=
    ensure_lists_get_ne s s1 "turn" he (by decide) (by decide) (by decide) (by decide)
  have h5 : pyGet s' "turn" = pyGet (bumpTurn a.mode s1) "turn" := by
    rw [addTags_get_ne _ _ _ _ hg (by decide), afterTlog_get_ne _ _ _ _ ht (by decide),
      afterDlog_get_ne _ _ _ _ hd (by decide)]
  rw [h5]
  unfold bumpTurn
  by_cases hm : pyUpper a.mode = "IC"
  · rw [if_pos hm, if_pos hm, ht1]
  · rw [if_neg hm, if_neg hm, pyGet_pySet_self]
    have hgd : pyGetD s1 "turn" (.num 0) = pyGetD s "turn" (.num 0) := by
      unfold pyGetD
      rw [ht1]
    rw [hgd]

theorem end_turn_ok_elim (a : Args) (s s' : PyDict) (h : end_turn a s = .ok s') :
    ∃ e, end_turnE a s = .ok (s', e) := by
  unfold end_turn at h
  cases hE : end_turnE a s with
  | error e1 => rw [hE] at h; simp [Except.map] at h
  | ok p =>
    obtain ⟨p1, p2⟩ := p
    rw [hE] at h
    simp [Except.map] at h
    exact ⟨p2, by rw [h]⟩

/-- C5: `end_turn` (the turn bookkeeping step of `persist_turn`) with mode
"GM" advances the `turn` field by exactly 1 when the stored counter is
numeric, resets it to 1 when its `int(...)` conversion fails, yields 1 when
the field is absent, and with mode "IC" leaves the `turn` field unchanged. -/
theorem end_turn_turn_advance :
    (∀ (a : Args) (s s' : PyDict) (n : Int), a.mode = "GM" → end_turn a s = .ok s' →
        pyIntE (pyGetD s "turn" (.num 0)) = .ok n →
        pyGet s' "turn" = some (.num (n + 1))) ∧
    (∀ (a : Args) (s s' : PyDict) (msg : String), a.mode = "GM" → end_turn a s = .ok s' →
        pyIntE (pyGetD s "turn" (.num 0)) = .error msg →
        pyGet s' "turn" = some (.num 1)) ∧
    (∀ (a : Args) (s s' : PyDict), a.mode = "GM" → end_turn a s = .ok s' →
        pyGet s "turn" = none → pyGet s' "turn" = some (.num 1)) ∧
    (∀ (a : Args) (s s' : PyDict), a.mode = "IC" → end_turn a s = .ok s' →
        pyGet s' "turn" = pyGet s "turn") := by
  have key : ∀ (a : Args) (s s' : PyDict), a.mode = "GM" → end_turn a s = .ok s' →
      pyGet s' "turn" = some (.num (match pyIntE (pyGetD s "turn" (.num 0)) with
        | .ok n => n + 1
        | .error _ => 1)) := by
    intro a s s' ha h
    obtain ⟨e, hE⟩ := end_turn_ok_elim a s s' h
    have ht := end_turnE_turn a s s' e hE
    have hm : ¬ pyUpper a.mode = "IC" := by
      rw [ha]
      decide
    rw [if_neg hm] at ht
    exact ht
  refine ⟨?_, ?_, ?_, ?_⟩
  · intro a s s' n ha h hn
    have := key a s s' ha h
    rw [hn] at this
    exact this
  · intro a s s' msg ha h hn
    have := key a s s' ha h
    rw [hn] at this
    exact this
  · intro a s s' ha h hn
    have := key a s s' ha h
    have hd : pyGetD s "turn" (.num 0) = .num 0 := by
      simp [pyGetD, hn]
    rw [hd] at this
    exact this
  · intro a s s' ha h
    obtain ⟨e, hE⟩ := end_turn_ok_elim a s s' h
    have ht := end_turnE_turn a s s' e hE
    have hm : pyUpper a.mode = "IC" := by rw [ha]; decide
    rw [if_pos hm] at ht
    exact ht

theorem end_turn_turn_advance_witness :
    pyGet c5gm_out "turn" = some (.num 5) ∧ pyGet c5ic_out "turn" = some (.num 7) := by
  constructor
  · have := end_turn_turn_advance.1 c5gm_args c5gm_save c5gm_out 4 rfl (by rfl) (by rfl)
    simpa using this
  · have := end_turn_turn_advance.2.2.2 c5ic_args c5ic_save c5ic_out rfl (by rfl)
    simpa using this

/-- C10: `end_turn` compares the mode case-insensitively against "IC": the
`turn` field is left unchanged exactly when `mode.upper() == "IC"`, and
every other mode string (including unrecognized ones) advances it. -/
theorem end_turn_mode_case_insensitive (a : Args) (s s' : PyDict)
    (h : end_turn a s = .ok s') :
    (pyGet s' "turn" = pyGet s "turn") ↔ pyUpper a.mode = "IC" := by
  obtain ⟨e, hE⟩ := end_turn_ok_elim a s s' h
  have ht := end_turnE_turn a s s' e hE
  by_cases hm : pyUpper a.mode = "IC"
  · rw [if_pos hm] at ht
    exact iff_of_true ht hm
  · rw [if_neg hm] at ht
    refine iff_of_false ?_ hm
    rw [ht]
    cases hg : pyGet s "turn" with
    | none => simp
    | some v =>
      cases v with
      | num n =>
        have hd : pyGetD s "turn" (.num 0) = .num n := by simp [pyGetD, hg]
        rw [hd]
        simp only [pyIntE]
        intro hc
        simp only [Option.some.injEq, JVal.num.injEq] at hc
        omega
      | null => simp
      | bool b => simp
      | str t => simp
      | arr xs => simp
      | obj kv => simp

theorem end_turn_mode_case_insensitive_witness :
    pyGet c10_out "turn" = pyGet c10_save "turn" :=
  (end_turn_mode_case_insensitive c10_args c10_save c10_out (by rfl)).mpr (by decide)

-- ------------------------
-- C9: basic_validate policy
-- ------------------------

theorem bv_issues_str (save : PyDict) (req : List String) :
    bv_issues save (req.map JVal.str) =
      .ok ((req.filter (fun k => !pyContainsKey save k)).map (fun k => "missing:" ++ k)) := by
  induction req with
  | nil => rfl
  | cons k r ih =>
    simp only [List.map_cons, bv_issues]
    by_cases h : pyContainsKey save k = true
    · simp [h, ih, List.filter_cons]
    · simp only [Bool.not_eq_true] at h
      simp [h, ih, List.filter_cons, Except.map]

theorem bv_issues_error_iff (save : PyDict) (req : List JVal) :
    (∃ e, bv_issues save req = .error e) ↔ req.all jHashable = false := by
  induction req with
  | nil => simp [bv_issues]
  | cons key r ih =>
    cases key with
    | arr xs => simp [bv_issues, jHashable]
    | obj kv => simp [bv_issues, jHashable]
    | str t =>
      simp only [bv_issues, List.all_cons, jHashable, Bool.true_and]
      by_cases h : pyContainsKey save t = true
      · simp only [h, if_true]
        exact ih
      · simp only [h, if_false]
        rw [← ih]
        cases hr : bv_issues save r with
        | error e => simp [Except.map]
        | ok l => simp [Except.map]
    | null =>
      simp only [bv_issues, List.all_cons, jHashable, Bool.true_and]
      rw [← ih]
      cases hr : bv_issues save r with
      | error e => simp [Except.map]
      | ok l => simp [Except.map]
    | bool b =>
      simp only [bv_issues, List.all_cons, jHashable, Bool.true_and]
      rw [← ih]
      cases hr : bv_issues save r with
      | error e => simp [Except.map]
      | ok l => simp [Except.map]
    | num n =>
      simp only [bv_issues, List.all_cons, jHashable, Bool.true_and]
      rw [← ih]
      cases hr : bv_issues save r with
      | error e => simp [Except.map]
      | ok l => simp [Except.map]

theorem basic_validate_error_iff_shape (v : JVal) (save : PyDict) :
    (∃ e, basic_validate (.json v) save = .error e) ↔ schemaShapeOk v = false := by
  unfold basic_validate schemaShapeOk
  cases hbr : bv_required v with
  | error e => simp [hbr]
  | ok req =>
    rw [← bv_issues_error_iff save req]
    cases hbi : bv_issues save req with
    | error e2 => simp [hbr, hbi]
    | ok l => simp [hbr, hbi]

/-- C9: `basic_validate` raises exactly when the save schema file is absent,
unparsable, or not of the shape the validator expects; on a well-formed
schema it returns one `missing:<key>` issue per required top-level key not
present in the document and never raises. -/
theorem basic_validate_schema_policy (fs : FileContent) (save : PyDict) :
    ((∃ e, basic_validate fs save = .error e) ↔
      fs = .absent ∨ fs = .invalidJson ∨ ∃ v, fs = .json v ∧ schemaShapeOk v = false) ∧
    (∀ (v sv : PyDict) (req : List String),
        fs = .json (.obj v) → pyGet v "schema" = some (.obj sv) →
        pyGet sv "top_level_order" = some (.arr (req.map JVal.str)) →
        basic_validate fs save =
          .ok ((req.filter (fun k => !pyContainsKey save k)).map
            (fun k => "missing:" ++ k))) := by
  constructor
  · cases fs with
    | absent =>
      refine iff_of_true ⟨_, rfl⟩ (Or.inl rfl)
    | invalidJson =>
      refine iff_of_true ⟨_, rfl⟩ (Or.inr (Or.inl rfl))
    | json v =>
      have hRHS : (FileContent.json v = FileContent.absent ∨
          FileContent.json v = FileContent.invalidJson ∨
          ∃ w, FileContent.json v = FileContent.json w ∧ schemaShapeOk w = false) ↔
          schemaShapeOk v = false := by
        constructor
        · rintro (h | h | ⟨w, hw, hs⟩)
          · exact absurd h (by simp)
          · exact absurd h (by simp)
          · cases hw
            exact hs
        · intro h
          exact Or.inr (Or.inr ⟨v, rfl, h⟩)
      rw [hRHS]
      exact basic_validate_error_iff_shape v save
  · intro v sv req hfs h1 h2
    subst hfs
    simp [basic_validate, bv_required, h1, h2, iterOf, bv_issues_str]

theorem basic_validate_schema_policy_witness :
    basic_validate (.json (.obj [("schema", .obj [("top_level_order",
        .arr [.str "turn", .str "world"])])])) [("turn", .num 1)] =
      .ok ["missing:world"] := by
  have h := (basic_validate_schema_policy (.json (.obj [("schema", .obj [("top_level_order",
      .arr [.str "turn", .str "world"])])])) [("turn", .num 1)]).2
    [("schema", .obj [("top_level_order", .arr [.str "turn", .str "world"])])]
    [("top_level_order", .arr [.str "turn", .str "world"])]
    ["turn", "world"] rfl rfl rfl
  rw [h]
  rfl

-- ------------------------
-- Merge lemmas
-- ------------------------

theorem pyContainsKey_append_left (m t : PyDict) (k : String)
    (h : pyContainsKey m k = true) : pyContainsKey (m ++ t) k = true := by
  unfold pyContainsKey at h ⊢
  cases hg : pyGet m k with
  | none => rw [hg] at h; simp at h
  | some v => rw [pyGet_append_left m t k v hg]; rfl

theorem refreshDigest_fst_get_ne (m : PyDict) (k : String) (hk : k ≠ "flags") :
    pyGet (refreshDigest m).1 k = pyGet m k := by
  unfold refreshDigest
  cases hf : pyGet m "flags" with
  | none =>
    simp only [hf]
    rw [pyGet_pySet_ne _ _ _ _ hk, pyGet_append_one_ne _ _ _ _ hk]
  | some v =>
    cases v with
    | obj fl =>
      cases hi : pyGet fl "integrity" with
      | none =>
        simp only [hf, hi]
        rw [pyGet_pySet_ne _ _ _ _ hk, pyGet_pySet_ne _ _ _ _ hk]
      | some w =>
        cases w with
        | obj il =>
          simp only [hf, hi]
          rw [pyGet_pySet_ne _ _ _ _ hk]
        | null => simp [hf, hi]
        | bool b => simp [hf, hi]
        | num n => simp [hf, hi]
        | str t => simp [hf, hi]
        | arr xs => simp [hf, hi]
    | null => simp [hf]
    | bool b => simp [hf]
    | num n => simp [hf]
    | str t => simp [hf]
    | arr xs => simp [hf]

theorem refreshDigest_fst_obj (m : PyDict) (fl ig : PyDict)
    (hf : pyGet m "flags" = some (.obj fl))
    (hi : pyGet fl "integrity" = some (.obj ig)) :
    (refreshDigest m).1 = pySet m "flags" (.obj (pySet fl "integrity"
      (.obj (pySet ig "save_hash" (.str (compute_save_hash m)))))) := by
  unfold refreshDigest
  simp only [hf, hi]

theorem gapFill_get_mem (inc : List (String × JVal)) (m : PyDict) (k : String)
    (h : pyContainsKey m k = true) : pyGet (gapFill m inc) k = pyGet m k := by
  induction inc generalizing m with
  | nil => rfl
  | cons p r ih =>
    obtain ⟨k', v'⟩ := p
    unfold gapFill
    by_cases hc : pyContainsKey m k' = true
    · rw [if_pos hc]
      exact ih m h
    · rw [if_neg hc]
      have hne : k ≠ k' := by
        intro he
        rw [he] at h
        exact hc h
      have hsame : pyGet (m ++ [(k', v')]) k = pyGet m k :=
        pyGet_append_one_ne m k' k v' hne
      rw [ih (m ++ [(k', v')]) (by unfold pyContainsKey; rw [hsame]; exact h), hsame]

-- ------------------------
-- C2: merge ordering by turn number
-- ------------------------

/-- C2 (amended): with strictly newer incoming the merge returns the
incoming document changed only by the digest refresh (every top-level key
other than `flags` is incoming's, verbatim), plus the turn-disparity
warning; with strictly older incoming it returns the current document with
gaps filled from incoming, never overwriting any existing top-level key of
current other than `flags`, whose nested integrity digest is recomputed,
plus the warning. -/
theorem import_save_merge_turn_ordering (fs : FileContent) (inc cur m : PyDict)
    (ws : List String) (a b : Int)
    (h : import_save_merge fs inc cur = .ok (m, ws))
    (hi : pyIntE (pyGetD inc "turn" (.num 0)) = .ok a)
    (hc : pyIntE (pyGetD cur "turn" (.num 0)) = .ok b) :
    (b < a → m = (refreshDigest inc).1 ∧
      (∀ k, k ≠ "flags" → pyGet m k = pyGet inc k) ∧
      ("info:incoming_newer:" ++ toString a ++ ">" ++ toString b) ∈ ws) ∧
    (a < b → m = (refreshDigest (gapFill cur inc)).1 ∧
      (∀ k, k ≠ "flags" → pyContainsKey cur k = true → pyGet m k = pyGet cur k) ∧
      ("info:current_newer:" ++ toString b ++ ">" ++ toString a) ∈ ws) := by
  unfold import_save_merge at h
  split at h
  · simp at h
  · rename_i w1 hw1
    split at h
    · simp at h
    · rename_i w2 hw2
      split at h
      · simp at h
      · rename_i ti hti
        split at h
        · simp at h
        · rename_i tc htc
          have hia : ti = a := by
            rw [hti] at hi
            exact Except.ok.inj hi
          have hcb : tc = b := by
            rw [htc] at hc
            exact Except.ok.inj hc
          subst hia
          subst hcb
          constructor
          · intro hab
            rw [if_pos hab] at h
            unfold finishMerge at h
            simp only [Except.ok.injEq, Prod.mk.injEq] at h
            obtain ⟨hm, hws⟩ := h
            refine ⟨hm.symm, ?_, ?_⟩
            · intro k hk
              rw [← hm]
              exact refreshDigest_fst_get_ne inc k hk
            · rw [← hws]
              simp
          · intro hab
            have hnot : ¬ tc < ti := by omega
            rw [if_neg hnot, if_pos hab] at h
            unfold finishMerge at h
            simp only [Except.ok.injEq, Prod.mk.injEq] at h
            obtain ⟨hm, hws⟩ := h
            refine ⟨hm.symm, ?_, ?_⟩
            · intro k hk hkc
              rw [← hm, refreshDigest_fst_get_ne _ k hk]
              exact gapFill_get_mem inc cur k hkc
            · rw [← hws]
              simp

theorem import_save_merge_turn_ordering_witness :
    c2wm = (refreshDigest c2winc).1 ∧ ("info:incoming_newer:5>3") ∈ c2wws := by
  have h := (import_save_merge_turn_ordering c2fs c2winc c2wcur c2wm c2wws 5 3
    (by rfl) (by rfl) (by rfl)).1 (by decide)
  exact ⟨h.1, h.2.2⟩

/-- C2 counterexample: with `incoming.turn = 1 < current.turn = 2` the merge
succeeds, `flags` is an existing top-level key of current and absent from
incoming, yet the merged document's `flags` value differs from current's —
the digest refresh overwrites it, so the claim's "never overwriting any
existing key of current" fails as stated. -/
theorem import_save_merge_gapfill_digest_cex :
    pyIntE (pyGetD c2inc "turn" (.num 0)) = .ok 1 ∧
    pyIntE (pyGetD c2cur "turn" (.num 0)) = .ok 2 ∧
    (match import_save_merge c2fs c2inc c2cur with
      | .ok _ => true
      | .error _ => false) = true ∧
    pyContainsKey c2cur "flags" = true ∧
    pyGet c2inc "flags" = none ∧
    pyGet c2m "flags" ≠ pyGet c2cur "flags" := by
  refine ⟨rfl, rfl, rfl, rfl, rfl, ?_⟩
  decide

-- ------------------------
-- C3: equal-turn merge
-- ------------------------

theorem concat_trim_arr (l : List JVal) (cap : Nat) :
    concat_trim (.arr l) cap = .arr (takeLastN cap l) := by
  show (if cap < l.length then JVal.arr (takeLastN cap l) else JVal.arr l) =
    JVal.arr (takeLastN cap l)
  by_cases hlt : cap < l.length
  · rw [if_pos hlt]
  · rw [if_neg hlt, takeLastN_of_le cap l (by omega)]

theorem equalMergeLogs_ok (m cur inc : PyDict) (cl il ctl itl : List JVal)
    (hcd : orList (pyGet cur "dialogue_log") = .arr cl)
    (hid : orList (pyGet inc "dialogue_log") = .arr il)
    (hct : orList (pyGet cur "turn_log") = .arr ctl)
    (hit : orList (pyGet inc "turn_log") = .arr itl) :
    equalMergeLogs m cur inc =
      .ok (pySet (pySet m "dialogue_log" (concat_trim (.arr (cl ++ il)) 10))
        "turn_log" (concat_trim (.arr (ctl ++ itl)) 50)) := by
  unfold equalMergeLogs
  rw [hcd, hid, hct, hit]
  rfl

theorem overwriteAll_get_notin (inc : List (String × JVal)) (m : PyDict) (k : String)
    (h : pyGet inc k = none) : pyGet (overwriteAll m inc) k = pyGet m k := by
  induction inc generalizing m with
  | nil => rfl
  | cons p r ih =>
    obtain ⟨k', v'⟩ := p
    have hsplit : k' ≠ k ∧ pyGet r k = none := by
      by_cases hk : k' = k
      · rw [show pyGet ((k', v') :: r) k = some v' from by simp [pyGet, hk]] at h
        exact absurd h (by simp)
      · exact ⟨hk, by rw [show pyGet ((k', v') :: r) k = pyGet r k from by
          simp [pyGet, hk]] at h; exact h⟩
    unfold overwriteAll
    rw [ih (pySet m k' v') hsplit.2, pyGet_pySet_ne _ _ _ _ (Ne.symm hsplit.1)]

theorem overwriteAll_get_mem (inc : List (String × JVal)) (m : PyDict) (k : String)
    (hnd : (inc.map Prod.fst).Nodup) (h : pyContainsKey inc k = true) :
    pyGet (overwriteAll m inc) k = pyGet inc k := by
  induction inc generalizing m with
  | nil => simp [pyContainsKey, pyGet] at h
  | cons p r ih =>
    obtain ⟨k', v'⟩ := p
    simp only [List.map_cons, List.nodup_cons] at hnd
    by_cases hk : k' = k
    · subst hk
      have hnotin : pyGet r k' = none := by
        cases hg : pyGet r k' with
        | none => rfl
        | some w =>
          exfalso
          apply hnd.1
          clear ih hnd h
          induction r with
          | nil => simp [pyGet] at hg
          | cons q t iht =>
            obtain ⟨kq, vq⟩ := q
            by_cases hq : kq = k'
            · simp [hq]
            · simp only [pyGet, hq, if_false] at hg
              simp [iht hg]
      unfold overwriteAll
      rw [overwriteAll_get_notin r _ _ hnotin, pyGet_pySet_self]
      simp [pyGet]
    · have hr : pyContainsKey r k = true := by
        unfold pyContainsKey at h ⊢
        simp only [pyGet, hk, if_false] at h
        exact h
      unfold overwriteAll
      rw [ih (pySet m k' v') hnd.2 hr]
      simp [pyGet, hk]

/-- C3 (amended): on equal turns the merged document is exactly the
current document overwritten key-by-key by incoming with the two logs
replaced by the current-then-incoming concatenations trimmed to the most
recent 10 / 50 entries, followed by the digest refresh (conjunct 1 is that
full characterization); in particular `dialogue_log` / `turn_log` hold the
trimmed concatenations, every other incoming top-level key apart from
`flags` carries incoming's value verbatim, and `flags` itself becomes
incoming's flags value changed only in the nested integrity digest, which
is recomputed from the merged document; the equal-turn warning is
recorded. -/
theorem import_save_merge_equal_turn (fs : FileContent) (inc cur m : PyDict)
    (ws : List String) (a : Int) (cl il ctl itl : List JVal)
    (h : import_save_merge fs inc cur = .ok (m, ws))
    (hi : pyIntE (pyGetD inc "turn" (.num 0)) = .ok a)
    (hc : pyIntE (pyGetD cur "turn" (.num 0)) = .ok a)
    (hcd : orList (pyGet cur "dialogue_log") = .arr cl)
    (hid : orList (pyGet inc "dialogue_log") = .arr il)
    (hct : orList (pyGet cur "turn_log") = .arr ctl)
    (hit : orList (pyGet inc "turn_log") = .arr itl)
    (hnd : (inc.map Prod.fst).Nodup) :
    m = (refreshDigest (equalMerged cur inc cl il ctl itl)).1 ∧
    pyGet m "dialogue_log" = some (.arr (takeLastN 10 (cl ++ il))) ∧
    pyGet m "turn_log" = some (.arr (takeLastN 50 (ctl ++ itl))) ∧
    (∀ k, k ≠ "flags" → k ≠ "dialogue_log" → k ≠ "turn_log" →
      pyContainsKey inc k = true → pyGet m k = pyGet inc k) ∧
    (∀ fl ig, pyGet inc "flags" = some (.obj fl) →
      pyGet fl "integrity" = some (.obj ig) →
      pyGet m "flags" = some (.obj (pySet fl "integrity" (.obj (pySet ig "save_hash"
        (.str (compute_save_hash (equalMerged cur inc cl il ctl itl)))))))) ∧
    "info:merged_equal_turn" ∈ ws := by
  unfold import_save_merge at h
  split at h
  · simp at h
  · rename_i w1 hw1
    split at h
    · simp at h
    · rename_i w2 hw2
      split at h
      · simp at h
      · rename_i ti hti
        split at h
        · simp at h
        · rename_i tc htc
          have hia : ti = a := by
            rw [hti] at hi
            exact Except.ok.inj hi
          have hcb : tc = a := by
            rw [htc] at hc
            exact Except.ok.inj hc
          rw [if_neg (by omega), if_neg (by omega)] at h
          rw [equalMergeLogs_ok (overwriteAll cur inc) cur inc cl il ctl itl
            hcd hid hct hit, concat_trim_arr, concat_trim_arr] at h
          unfold finishMerge at h
          simp only [Except.ok.injEq, Prod.mk.injEq] at h
          obtain ⟨hm, hws⟩ := h
          have hdl : pyGet m "dialogue_log" = some (.arr (takeLastN 10 (cl ++ il))) := by
            rw [← hm, refreshDigest_fst_get_ne _ _ (by decide),
              pyGet_pySet_ne _ _ _ _ (by decide), pyGet_pySet_self]
          have htl : pyGet m "turn_log" = some (.arr (takeLastN 50 (ctl ++ itl))) := by
            rw [← hm, refreshDigest_fst_get_ne _ _ (by decide), pyGet_pySet_self]
          refine ⟨hm.symm, hdl, htl, ?_, ?_, ?_⟩
          · intro k hkf hkd hkt hmem
            rw [← hm, refreshDigest_fst_get_ne _ _ hkf, pyGet_pySet_ne _ _ _ _ hkt,
              pyGet_pySet_ne _ _ _ _ hkd]
            exact overwriteAll_get_mem inc cur k hnd hmem
          · intro fl ig hfi hig
            have hmem : pyContainsKey inc "flags" = true := by
              unfold pyContainsKey
              rw [hfi]
              rfl
            have h2 : pyGet (pySet (pySet (overwriteAll cur inc) "dialogue_log"
                (JVal.arr (takeLastN 10 (cl ++ il)))) "turn_log"
                (JVal.arr (takeLastN 50 (ctl ++ itl)))) "flags" = some (.obj fl) := by
              rw [pyGet_pySet_ne _ _ _ _ (by decide), pyGet_pySet_ne _ _ _ _ (by decide),
                overwriteAll_get_mem inc cur _ hnd hmem, hfi]
            rw [← hm, refreshDigest_fst_obj _ fl ig h2 hig, pyGet_pySet_self]
            rfl
          · rw [← hws]
            simp

theorem import_save_merge_equal_turn_witness :
    pyGet c3wm "dialogue_log" =
      some (.arr ([4, 5, 10, 11, 12, 13, 14, 15, 16, 17].map JVal.num)) ∧
    "info:merged_equal_turn" ∈ c3wws ∧
    pyGet c3m "flags" = some (.obj [("integrity", .obj [("save_hash",
      .str (compute_save_hash (equalMerged c3cur c3inc [] [] [] [])))])]) := by
  have h := import_save_merge_equal_turn c2fs c3winc c3wcur c3wm c3wws 1
    ([1, 2, 3, 4, 5].map JVal.num) ([10, 11, 12, 13, 14, 15, 16, 17].map JVal.num)
    [] [] (by rfl) (by rfl) (by rfl) (by rfl) (by rfl) (by rfl) (by rfl) (by decide)
  have h2 := import_save_merge_equal_turn c2fs c3inc c3cur c3m c3ws 1 [] [] [] []
    (by rfl) (by rfl) (by rfl) (by rfl) (by rfl) (by rfl) (by rfl) (by decide)
  refine ⟨?_, h.2.2.2.2.2, ?_⟩
  · rw [h.2.1]
    rfl
  · exact h2.2.2.2.2.1 _ _ rfl rfl

/-- C3 counterexample: with equal turns, `flags` is a top-level key of both
documents and is not `dialogue_log`/`turn_log`, yet the merged document's
`flags` value is not incoming's value — the digest refresh rewrites it — so
"overwrites every top-level key of current with incoming's value EXCEPT
dialogue_log and turn_log" fails as stated. -/
theorem import_save_merge_equal_turn_digest_cex :
    pyIntE (pyGetD c3inc "turn" (.num 0)) = .ok 1 ∧
    pyIntE (pyGetD c3cur "turn" (.num 0)) = .ok 1 ∧
    (match import_save_merge c2fs c3inc c3cur with
      | .ok _ => true
      | .error _ => false) = true ∧
    pyContainsKey c3cur "flags" = true ∧
    pyContainsKey c3inc "flags" = true ∧
    pyGet c3m "flags" ≠ pyGet c3inc "flags" := by
  refine ⟨rfl, rfl, rfl, rfl, rfl, ?_⟩
  decide

-- ------------------------
-- C8: dialogue_log bound
-- ------------------------

theorem trimIf_eq (l : List JVal) : trimIf l = takeLastN 10 l := by
  unfold trimIf
  by_cases hlt : 10 < l.length
  · rw [if_pos hlt]
  · rw [if_neg hlt, takeLastN_of_le 10 l (by omega)]

theorem bumpTurn_get_ne (mode : String) (s : PyDict) (k : String) (hk : k ≠ "turn") :
    pyGet (bumpTurn mode s) k = pyGet s k := by
  unfold bumpTurn
  by_cases hm : pyUpper mode = "IC"
  · rw [if_pos hm]
  · rw [if_neg hm, pyGet_pySet_ne _ _ _ _ hk]

theorem ensure_lists_get_dlog (s s1 : PyDict) (h : ensure_lists s = .ok s1) :
    pyGet s1 "dialogue_log" = some ((pyGet s "dialogue_log").getD (.arr [])) := by
  have hget3 : pyGet (ensure3 s) "dialogue_log" =
      some ((pyGet s "dialogue_log").getD (.arr [])) := by
    unfold ensure3
    rw [pyGet_setdefault_ne _ _ _ _ (by decide), pyGet_setdefault_ne _ _ _ _ (by decide),
      pyGet_setdefault_self]
  unfold ensure_lists at h
  split at h
  · simp only [Except.ok.injEq] at h
    rw [← h, pyGet_append_one_ne _ _ _ _ (by decide), hget3]
  · simp only [Except.ok.injEq] at h
    rw [← h, pyGet_pySet_ne _ _ _ _ (by decide), hget3]
  · simp at h

theorem afterDlog_ok_elim (a : Args) (s2 s3 : PyDict) (h : afterDlog a s2 = .ok s3) :
    ∃ dl0, pyGet s2 "dialogue_log" = some (.arr dl0) ∧
      s3 = pySet s2 "dialogue_log" (.arr (trimIf (dl0 ++ [mkEntry a s2]))) := by
  unfold afterDlog at h
  split at h
  · rename_i dl0 hdl
    simp only [Except.ok.injEq] at h
    exact ⟨dl0, hdl, h.symm⟩
  · simp at h
  · simp at h

/-- One `end_turn` call leaves `dialogue_log` equal to the previous list
(empty when the field was absent) extended with the new entry and capped at
the 10 most recent elements. -/
theorem end_turnE_dlog (a : Args) (s s' : PyDict) (e : JVal)
    (h : end_turnE a s = .ok (s', e)) :
    ∃ l0, ((pyGet s "dialogue_log" = none ∧ l0 = []) ∨
        pyGet s "dialogue_log" = some (.arr l0)) ∧
      pyGet s' "dialogue_log" = some (.arr (takeLastN 10 (l0 ++ [e]))) := by
  obtain ⟨s1, s3, s4, he, hd, ht, hg, hee⟩ := end_turnE_ok_elim a s s' e h
  obtain ⟨dl0, hdl, hs3⟩ := afterDlog_ok_elim a (bumpTurn a.mode s1) s3 hd
  have hkeep : pyGet s' "dialogue_log" = pyGet s3 "dialogue_log" := by
    rw [addTags_get_ne _ _ _ _ hg (by decide), afterTlog_get_ne _ _ _ _ ht (by decide)]
  have hs3get : pyGet s3 "dialogue_log" = some (.arr (trimIf (dl0 ++ [mkEntry a
      (bumpTurn a.mode s1)]))) := by
    rw [hs3, pyGet_pySet_self]
  have hfinal : pyGet s' "dialogue_log" =
      some (.arr (takeLastN 10 (dl0 ++ [e]))) := by
    rw [hkeep, hs3get, trimIf_eq, hee]
  have hlink : pyGet (bumpTurn a.mode s1) "dialogue_log" =
      some ((pyGet s "dialogue_log").getD (.arr [])) := by
    rw [bumpTurn_get_ne _ _ _ (by decide)]
    exact ensure_lists_get_dlog s s1 he
  rw [hlink] at hdl
  cases hg0 : pyGet s "dialogue_log" with
  | none =>
    refine ⟨[], Or.inl ⟨rfl, rfl⟩, ?_⟩
    rw [hg0] at hdl
    simp only [Option.getD, Option.some.injEq] at hdl
    have : dl0 = [] := by
      cases hdl
      rfl
    rw [this] at hfinal
    exact hfinal
  | some v =>
    rw [hg0] at hdl
    simp only [Option.getD, Option.some.injEq] at hdl
    refine ⟨dl0, Or.inr ?_, hfinal⟩
    rw [hdl]

theorem runE_cons_elim (a : Args) (cs : List Args) (s s'' : PyDict) (es'' : List JVal)
    (h : runE (a :: cs) s = .ok (s'', es'')) :
    ∃ s1 e es1, end_turnE a s = .ok (s1, e) ∧ runE cs s1 = .ok (s'', es1) ∧
      es'' = e :: es1 := by
  unfold runE at h
  cases hstep : end_turnE a s with
  | error e0 =>
    rw [hstep] at h
    simp at h
  | ok p =>
    obtain ⟨s1, e⟩ := p
    simp only [hstep] at h
    cases hrest : runE cs s1 with
    | error e2 =>
      simp only [hrest] at h
      simp at h
    | ok q =>
      obtain ⟨s2, es1⟩ := q
      simp only [hrest, Except.ok.injEq, Prod.mk.injEq] at h
      exact ⟨s1, e, es1, rfl, by rw [← h.1]; exact hrest, h.2.symm⟩

/-- Folding `end_turn` over a call list: the final `dialogue_log` is the
last-10 window over the initial list extended by all appended entries. -/
theorem runE_dlog (cs : List Args) (s s' : PyDict) (es : List JVal)
    (h : runE cs s = .ok (s', es)) :
    es.length = cs.length ∧
    (cs ≠ [] → ∀ l0, ((pyGet s "dialogue_log" = none ∧ l0 = []) ∨
        pyGet s "dialogue_log" = some (.arr l0)) →
      pyGet s' "dialogue_log" = some (.arr (takeLastN 10 (l0 ++ es)))) := by
  induction cs generalizing s es with
  | nil =>
    unfold runE at h
    simp only [Except.ok.injEq, Prod.mk.injEq] at h
    refine ⟨?_, fun hne _ _ => absurd rfl hne⟩
    rw [← h.2]
    rfl
  | cons a cs ih =>
    obtain ⟨s1, e, es1, hstep, hrest, hes⟩ := runE_cons_elim a cs s s' es h
    obtain ⟨hlen, hrec⟩ := ih s1 es1 hrest
    obtain ⟨l0', hl0', hstepdlog⟩ := end_turnE_dlog a s s1 e hstep
    constructor
    · rw [hes]
      simp [hlen]
    · intro _ l0 hl0
      have hl0eq : l0 = l0' := by
        rcases hl0 with ⟨hn, hnil⟩ | hsome
        · rcases hl0' with ⟨-, hnil'⟩ | hsome'
          · rw [hnil, hnil']
          · rw [hn] at hsome'
            exact absurd hsome' (by simp)
        · rcases hl0' with ⟨hn', -⟩ | hsome'
          · rw [hn'] at hsome
            exact absurd hsome (by simp)
          · rw [hsome] at hsome'
            simp only [Option.some.injEq, JVal.arr.injEq] at hsome'
            exact hsome'
      subst hl0eq
      cases cs with
      | nil =>
        unfold runE at hrest
        simp only [Except.ok.injEq, Prod.mk.injEq] at hrest
        rw [hes, ← hrest.1, ← hrest.2]
        exact hstepdlog
      | cons b cs' =>
        have hres := hrec (by simp) (takeLastN 10 (l0 ++ [e])) (Or.inr hstepdlog)
        rw [hes, hres, takeLastN_idem_append, List.append_assoc]
        rfl

/-- C8: after any non-empty sequence of `end_turn` calls the save's
`dialogue_log` holds at most 10 entries, and after more than 10 calls it
holds exactly the entries appended by the 10 most recent calls, in call
order (oldest evicted). -/
theorem dialogue_log_bound (cs : List Args) (s s' : PyDict) (es : List JVal)
    (h : runE cs s = .ok (s', es)) :
    es.length = cs.length ∧
    (cs ≠ [] → ∃ l, pyGet s' "dialogue_log" = some (.arr l) ∧ l.length ≤ 10) ∧
    (10 < cs.length → pyGet s' "dialogue_log" = some (.arr (takeLastN 10 es))) := by
  obtain ⟨hlen, hrec⟩ := runE_dlog cs s s' es h
  have hfirst : cs ≠ [] → ∃ l0, ((pyGet s "dialogue_log" = none ∧ l0 = []) ∨
      pyGet s "dialogue_log" = some (.arr l0)) := by
    intro hne
    cases cs with
    | nil => exact absurd rfl hne
    | cons a cs' =>
      obtain ⟨s1, e, es1, hstep, -, -⟩ := runE_cons_elim a cs' s s' es h
      obtain ⟨l0, hl0, -⟩ := end_turnE_dlog a s s1 e hstep
      exact ⟨l0, hl0⟩
  refine ⟨hlen, ?_, ?_⟩
  · intro hne
    obtain ⟨l0, hl0⟩ := hfirst hne
    exact ⟨takeLastN 10 (l0 ++ es), hrec hne l0 hl0, takeLastN_length_le 10 _⟩
  · intro hgt
    have hne : cs ≠ [] := by
      intro hc
      rw [hc] at hgt
      simp at hgt
    obtain ⟨l0, hl0⟩ := hfirst hne
    rw [hrec hne l0 hl0, takeLastN_append_left 10 l0 es (by omega)]

theorem dialogue_log_bound_witness :
    c8es.length = c8calls.length ∧ 10 < c8calls.length ∧
    pyGet c8out "dialogue_log" = some (.arr (takeLastN 10 c8es)) := by
  have h := dialogue_log_bound c8calls [] c8out c8es (by rfl)
  exact ⟨h.1, by decide, h.2.2 (by decide)⟩

-- ------------------------
-- C7: persistence failure classification
-- ------------------------

/-- C7 (amended): every exception raised inside the persistence `try` block
— whether from the turn bookkeeping (sub-step 1) or from the journal append
(sub-steps 2–3) — is caught and re-raised as one `PERSISTENCE_FAILED`
failure carrying the original cause; callers therefore cannot distinguish a
turn-logic failure from a storage-layer failure by the failure kind. -/
theorem persist_failures_classified (F : Faults) (base now : String) (jfs : FileContent)
    (d : Disk) (s : PyDict) (a : Args) :
    (∀ e, end_turn (persistArgs a) s = .error e →
      (persist_turn_and_footer F base now jfs d s a).1 =
        .error ("PERSISTENCE_FAILED: " ++ e)) ∧
    (∀ s1 e, end_turn (persistArgs a) s = .ok s1 →
      (append_journal jfs now (persistWrite F d s1).1 (persistArgs a) none
        (persistWrite F d s1).2.journal).1 = .error e →
      (persist_turn_and_footer F base now jfs d s a).1 =
        .error ("PERSISTENCE_FAILED: " ++ e)) := by
  constructor
  · intro e he
    unfold persist_turn_and_footer
    simp only [he]
  · intro s1 e h1 h2
    unfold persist_turn_and_footer
    simp only [h1, h2]

theorem persist_failures_classified_witness :
    (persist_turn_and_footer honestFaults "" "now" c7jfs c7disk c7save c7args).1 =
      .error ("PERSISTENCE_FAILED: " ++ c7msg) :=
  (persist_failures_classified honestFaults "" "now" c7jfs c7disk c7save c7args).1
    c7msg (by rfl)

/-- C7 counterexample: on a save whose `dialogue_log` is not a list, the
turn bookkeeping (sub-step 1, `end_turn`) raises, and
`persist_turn_and_footer` re-raises that very exception classified as
`PERSISTENCE_FAILED` — so sub-step-1 exceptions are classified exactly like
storage failures, contrary to the claim. -/
theorem persist_wraps_bookkeeping_cex :
    (match end_turn (persistArgs c7args) c7save with
      | .error _ => true
      | .ok _ => false) = true ∧
    (persist_turn_and_footer honestFaults "" "nowX" c7jfs c7disk c7save c7args).1 =
      .error ("PERSISTENCE_FAILED: " ++ c7msg) ∧
    strBegins ("PERSISTENCE_FAILED: " ++ c7msg) "PERSISTENCE_FAILED" = true := by
  exact ⟨rfl, rfl, rfl⟩

-- ------------------------
-- C1: post-write verification guard
-- ------------------------

theorem goContains_mono (x h n : List Char) (hh : goContains h n = true) :
    goContains (x ++ h) n = true := by
  induction x with
  | nil => simpa using hh
  | cons c q ih =>
    rw [List.cons_append]
    unfold goContains
    by_cases hb : charsBegin n (c :: (q ++ h)) = true
    · simp [hb]
    · simp [hb, ih]

theorem strContains_suffix (pre m : String) : strContainsB (pre ++ m) m = true := by
  unfold strContainsB
  rw [String.data_append]
  exact goContains_suffix pre.data m.data

theorem strBegins_PF (e : String) :
    strBegins ("PERSISTENCE_FAILED: " ++ e) "PERSISTENCE_FAILED" = true := by
  unfold strBegins
  rw [String.data_append]
  have h : ("PERSISTENCE_FAILED: ").data = ("PERSISTENCE_FAILED").data ++ [':', ' '] := by
    decide
  rw [h, List.append_assoc]
  exact charsBegin_append _ _

/-- When either artifact is missing or empty, the footer carries the
not-written marker. -/
theorem compose_footer_marker (base : String) (d : Disk) (h : diskBothOk d = false) :
    strContainsB (compose_footer base d) FOOTER_MARKER = true := by
  unfold compose_footer
  have hc : (nonemptyFile d.save && nonemptyFile d.journal) = false := h
  simp only [hc, Bool.false_eq_true, if_false, List.append_assoc, List.cons_append,
    List.nil_append]
  unfold strContainsB
  simp only [pyJoin, String.data_append]
  apply goContains_mono
  apply goContains_mono
  apply goContains_mono
  simpa using goContains_suffix [] FOOTER_MARKER.data

/-- Every run of the persist pipeline either fails with a classified
`PERSISTENCE_FAILED` error, or returns the footer composed over the final
storage state, with the not-written marker absent from it. -/
theorem persist_result_cases (F : Faults) (base now : String) (jfs : FileContent)
    (d : Disk) (s : PyDict) (a : Args) :
    (∃ e, (persist_turn_and_footer F base now jfs d s a).1 = .error e ∧
      strBegins e "PERSISTENCE_FAILED" = true) ∨
    ((persist_turn_and_footer F base now jfs d s a).1 =
      .ok (compose_footer base (persist_turn_and_footer F base now jfs d s a).2) ∧
     strContainsB (compose_footer base (persist_turn_and_footer F base now jfs d s a).2)
       FOOTER_MARKER = false) := by
  unfold persist_turn_and_footer
  cases hend : end_turn (persistArgs a) s with
  | error e =>
    simp only [hend]
    exact Or.inl ⟨_, rfl, strBegins_PF e⟩
  | ok s1 =>
    simp only [hend]
    cases hap : (append_journal jfs now (persistWrite F d s1).1 (persistArgs a) none
        (persistWrite F d s1).2.journal).1 with
    | error e =>
      simp only [hap]
      exact Or.inl ⟨_, rfl, strBegins_PF e⟩
    | ok u =>
      simp only [hap]
      split
      · rename_i hifc
        refine Or.inl ⟨_, rfl, ?_⟩
        decide
      · rename_i hifc
        refine Or.inr ⟨rfl, ?_⟩
        simpa using hifc

/-- C1: `persist_turn_and_footer` returns a footer payload only if, re-read
from storage after the write/append sequence, both the canonical save file
and the journal file exist and are non-empty; whenever either artifact is
missing or empty on the final storage state (e.g. a silently corrupted save
write), the call fails with a `PERSISTENCE_FAILED` error and no footer is
returned. -/
theorem persist_postcondition (F : Faults) (base now : String) (jfs : FileContent)
    (d : Disk) (s : PyDict) (a : Args) :
    (∀ f, (persist_turn_and_footer F base now jfs d s a).1 = .ok f →
      diskBothOk (persist_turn_and_footer F base now jfs d s a).2 = true) ∧
    (diskBothOk (persist_turn_and_footer F base now jfs d s a).2 = false →
      ∃ e, (persist_turn_and_footer F base now jfs d s a).1 = .error e ∧
        strBegins e "PERSISTENCE_FAILED" = true) := by
  rcases persist_result_cases F base now jfs d s a with ⟨e, he, hp⟩ | ⟨hok, hnm⟩
  · constructor
    · intro f hf
      rw [he] at hf
      simp at hf
    · intro _
      exact ⟨e, he, hp⟩
  · constructor
    · intro f hf
      cases hbod : diskBothOk (persist_turn_and_footer F base now jfs d s a).2 with
      | true => rfl
      | false =>
        rw [compose_footer_marker base _ hbod] at hnm
        simp at hnm
    · intro hbad
      rw [compose_footer_marker base _ hbad] at hnm
      simp at hnm

theorem persist_postcondition_witness :
    diskBothOk c1res.2 = false ∧
    (∃ e, c1res.1 = .error e ∧ strBegins e "PERSISTENCE_FAILED" = true) := by
  constructor
  · decide
  · exact (persist_postcondition c1fault "" "2026-01-01T00:00:00Z" c7jfs c7disk
      [("turn", .num 0)] c1args).2 (by decide)

-- ------------------------
-- C4: journal entry strict validation
-- ------------------------

theorem collectMissing_str (e : PyDict) (rk : List String) :
    collectMissing e (rk.map JVal.str) =
      .ok ((rk.filter (fun k => entryFieldMissing e k)).map JVal.str) := by
  induction rk with
  | nil => rfl
  | cons k r ih =>
    simp only [List.map_cons, collectMissing]
    cases hm : entryFieldMissing e k with
    | true => simp [hm, ih, List.filter_cons, Except.map]
    | false => simp [hm, ih, List.filter_cons]

theorem joinComma_str (l : List String) :
    joinComma (l.map JVal.str) = .ok l := by
  induction l with
  | nil => rfl
  | cons k r ih => simp [joinComma, ih, Except.map]

theorem keyLoop_spec (i : Nat) (kvs : PyDict) (keys : List String) :
    keyLoop i (.obj kvs) (keys.map JVal.str) =
      match keys.find? (fun k => entryFieldMissing kvs k) with
      | some k => .error ("Journal dialogue line " ++ toString i ++ " missing '" ++
          k ++ "' per schema")
      | none => .ok () := by
  induction keys with
  | nil => rfl
  | cons k ks ih =>
    simp only [List.map_cons, keyLoop, lineKeyMissing]
    cases hm : entryFieldMissing kvs k with
    | true => simp [List.find?_cons, hm, pyStr]
    | false => simp [List.find?_cons, hm, ih]

theorem lineLoop_spec (drKeys : List String) (lines : List JVal) (i : Nat)
    (hobj : ∀ l ∈ lines, ∃ kvs, l = JVal.obj kvs) :
    lineLoop (drKeys.map JVal.str) i lines =
      match firstViol drKeys i lines with
      | some p => .error ("Journal dialogue line " ++ toString p.1 ++ " missing '" ++
          p.2 ++ "' per schema")
      | none => .ok () := by
  induction lines generalizing i with
  | nil => rfl
  | cons l rest ih =>
    obtain ⟨kvs, hl⟩ := hobj l (by simp)
    subst hl
    simp only [lineLoop, keyLoop_spec, firstViol, lineFirstMiss]
    cases hf : List.find? (fun k => entryFieldMissing kvs k) drKeys with
    | some k => simp [hf]
    | none =>
      simp only [hf]
      exact ih (i + 1) (fun l hm => hobj l (by simp [hm]))

theorem firstViol_nil (lines : List JVal) (i : Nat) : firstViol [] i lines = none := by
  induction lines generalizing i with
  | nil => rfl
  | cons l rest ih =>
    unfold firstViol
    have hm : lineFirstMiss l [] = none := by
      cases l <;> rfl
    rw [hm]
    exact ih (i + 1)

theorem iterOf_orList_arr (lines : List JVal) :
    iterOf (orList (some (.arr lines))) = .ok lines := by
  cases lines <;> rfl

theorem dlgCheck_spec (entry : PyDict) (drKeys : List String) (lines : List JVal)
    (hdial : pyGet entry "dialogue" = some (.arr lines))
    (hobj : ∀ l ∈ lines, ∃ kvs, l = JVal.obj kvs) :
    dlgCheck entry (.arr (drKeys.map JVal.str)) =
      match firstViol drKeys 0 lines with
      | some p => .error ("Journal dialogue line " ++ toString p.1 ++ " missing '" ++
          p.2 ++ "' per schema")
      | none => .ok () := by
  unfold dlgCheck
  cases drKeys with
  | nil =>
    rw [firstViol_nil]
    rfl
  | cons k ks =>
    simp only [List.map_cons, truthy, List.isEmpty_cons, Bool.not_false, if_true, hdial,
      iterOf_orList_arr]
    exact lineLoop_spec (k :: ks) lines 0 hobj

/-- C4: `append_journal` is strict. With the journal schema listing root
required keys `reqKeys` and dialogue-item required keys `drKeys`, and the
built entry carrying a list of dict dialogue lines: (1) if any root-required
key is absent from the entry or holds None/empty-string, the call fails with
an error naming exactly the missing fields and the journal file is
byte-for-byte unchanged; (2) otherwise, if some dialogue line lacks (or has
None/empty) a required item key, the call fails naming the offending line's
position and the file is again unchanged; (3) the NDJSON line is appended
only when both validation tiers pass. -/
theorem append_journal_strict
    (jfile : Option String) (now : String) (save : PyDict) (a : Args)
    (extra : Option PyDict) (js : JVal) (entry : PyDict)
    (reqKeys drKeys : List String) (lines : List JVal)
    (hentry : journalEntryOf save now a extra = .ok entry)
    (hreq : rootRequiredOf js = .ok (reqKeys.map JVal.str))
    (hdr : dlgReqOf js = .ok (.arr (drKeys.map JVal.str)))
    (hdial : pyGet entry "dialogue" = some (.arr lines))
    (hobj : ∀ l ∈ lines, ∃ kvs, l = JVal.obj kvs) :
    (reqKeys.filter (fun k => entryFieldMissing entry k) ≠ [] →
      append_journal (.json js) now save a extra jfile =
        (.error ("Journal entry missing required fields per schema: " ++
          pyJoin ", " (reqKeys.filter (fun k => entryFieldMissing entry k))), jfile)) ∧
    (∀ i k, reqKeys.filter (fun k => entryFieldMissing entry k) = [] →
      firstViol drKeys 0 lines = some (i, k) →
      append_journal (.json js) now save a extra jfile =
        (.error ("Journal dialogue line " ++ toString i ++ " missing '" ++ k ++
          "' per schema"), jfile)) ∧
    (reqKeys.filter (fun k => entryFieldMissing entry k) = [] →
      firstViol drKeys 0 lines = none →
      append_journal (.json js) now save a extra jfile =
        (.ok JOURNAL_PATH, some ((jfile.getD "") ++ dumpDefault (.obj entry) ++ "\n"))) := by
  refine ⟨?_, ?_, ?_⟩
  · intro hne
    cases hc : reqKeys.filter (fun k => entryFieldMissing entry k) with
    | nil => exact absurd hc hne
    | cons m ms =>
      unfold append_journal
      simp only [hentry, hreq, collectMissing_str, hc]
      rw [if_neg (by simp)]
      simp only [joinComma_str]
  · intro i k hm hfv
    unfold append_journal
    simp only [hentry, hreq, collectMissing_str, hm, List.map_nil, List.isEmpty_nil,
      eq_self_iff_true, if_true, hdr]
    rw [dlgCheck_spec entry drKeys lines hdial hobj]
    simp only [hfv]
  · intro hm hfv
    unfold append_journal
    simp only [hentry, hreq, collectMissing_str, hm, List.map_nil, List.isEmpty_nil,
      eq_self_iff_true, if_true, hdr]
    rw [dlgCheck_spec entry drKeys lines hdial hobj]
    simp only [hfv]

theorem append_journal_strict_witness :
    (["turn", "location"].filter (fun k => entryFieldMissing c4entry k) ≠ []) ∧
    pyJoin ", " (["turn", "location"].filter (fun k => entryFieldMissing c4entry k)) =
      "location" ∧
    c4res = (.error ("Journal entry missing required fields per schema: " ++
      pyJoin ", " (["turn", "location"].filter (fun k => entryFieldMissing c4entry k))),
      some "PRIOR\n") := by
  refine ⟨by decide, by decide, ?_⟩
  exact (append_journal_strict (some "PRIOR\n") "2026-01-01T00:00:00Z" c4save c4args
    none c4js c4entry ["turn", "location"] ["speaker", "text"] []
    rfl rfl rfl rfl (by simp)).1 (by decide)
